import Mathlib

/-
Verification of the statistical aggregation and outlier-cleaning pipeline of
the vector_dbs_benchmarking repository.

Embedding conventions, used throughout:
* Python floats are modelled as exact numbers: `ℚ` for stored sample values
  and all arithmetic that stays rational, `ℝ` for quantities that go through
  `sqrt` (standard deviations and coefficients of variation).  `float('-inf')`
  and `float('inf')`, which appear only as IQR bounds, are modelled by the
  extended rationals `WithBot (WithTop ℚ)`.
* A JSON key that is absent and a key that is present with value `null` are
  both modelled as `Option.none`: every consumer in the scripts reads these
  fields with `dict.get`, which returns `None` in both cases.
* Division by zero in `ℚ`/`ℝ` gives the junk value `0`; the code paths the
  theorems below talk about never divide by zero.
* In-place mutation of JSON dictionaries (the scripts mutate `data` and the
  run records aliased through a shallow `dict.copy()`) is made explicit by
  returning the post-mutation value; aliasing through the shallow copy in
  `aggregate_results` is spelled out where it occurs.
-/

open Classical

/-! ## Rational statistics helpers (Scripts/clean_outliers_n10.py and friends) -/

/-- `np.mean` over a list of rationals (`nan` on empty input is modelled by the
junk value `0 / 0 = 0`; all call sites guard against empty lists). -/
def npMean (l : List ℚ) : ℚ := l.sum / l.length

/-- Population variance (`ddof=0`), the square of `np.std(values, ddof=0)`. -/
def npVar (l : List ℚ) : ℚ := ((l.map (fun x => (x - npMean l) ^ 2)).sum) / l.length

/-- `np.min` over a nonempty list (junk `0` on empty input). -/
def npMin (l : List ℚ) : ℚ :=
  match l with
  | [] => 0
  | h :: t => t.foldl min h

/-- `np.max` over a nonempty list (junk `0` on empty input). -/
def npMax (l : List ℚ) : ℚ :=
  match l with
  | [] => 0
  | h :: t => t.foldl max h

/-- `np.median`: middle element of the sorted list, or the average of the two
middle elements for even length (junk `0` on empty input). -/
def npMedian (l : List ℚ) : ℚ :=
  let s := List.insertionSort (· ≤ ·) l
  let n := s.length
  if n = 0 then 0
  else if n % 2 = 1 then s.getD (n / 2) 0
  else (s.getD (n / 2 - 1) 0 + s.getD (n / 2) 0) / 2

/-- Floor of a nonnegative rational as a natural number (kernel-reducible
replacement for `Nat.floor`, with which it agrees on nonnegative inputs). -/
def natFloorPos (x : ℚ) : ℕ := (x.num / (x.den : ℤ)).toNat

/-- `np.percentile(values, q)` with the default linear-interpolation method:
position `q/100 * (n-1)` into the sorted list, linearly interpolated. -/
def npPercentile (values : List ℚ) (q : ℚ) : ℚ :=
  let s := List.insertionSort (· ≤ ·) values
  let n := s.length
  if n = 0 then 0
  else
    let pos : ℚ := q / 100 * (n - 1)
    let i : ℕ := natFloorPos pos
    let frac : ℚ := pos - i
    if i + 1 < n then s.getD i 0 + frac * (s.getD (i + 1) 0 - s.getD i 0)
    else s.getD (n - 1) 0

/-- Extended rationals, modelling Python floats together with `±inf`. -/
def FloatQ : Type := WithBot (WithTop ℚ)

instance : LT FloatQ := inferInstanceAs (LT (WithBot (WithTop ℚ)))
instance : DecidableRel (fun a b : FloatQ => a < b) :=
  inferInstanceAs (DecidableRel (fun a b : WithBot (WithTop ℚ) => a < b))
instance : Bot FloatQ := inferInstanceAs (Bot (WithBot (WithTop ℚ)))
instance : Top FloatQ := inferInstanceAs (Top (WithBot (WithTop ℚ)))
instance : DecidableEq FloatQ := inferInstanceAs (DecidableEq (WithBot (WithTop ℚ)))

/-- Embeds a finite rational into `FloatQ`. -/
def toFQ (v : ℚ) : FloatQ := ((v : WithTop ℚ) : WithBot (WithTop ℚ))

/-! ### IQR detector, conservative tier (Scripts/clean_outliers_n10.py) -/

/-- `calculate_iqr_bounds` of clean_outliers_n10.py: `[q1 - 3*iqr, q3 + 3*iqr]`,
or `(-inf, inf)` for fewer than 4 points. -/
def calculate_iqr_bounds (values : List ℚ) : FloatQ × FloatQ :=
  if values.length < 4 then (⊥, ⊤)
  else
    let q1 := npPercentile values 25
    let q3 := npPercentile values 75
    let iqr := q3 - q1
    (toFQ (q1 - 3 * iqr), toFQ (q3 + 3 * iqr))

/-- `identify_outliers` of clean_outliers_n10.py: indices of values strictly
outside the 3×IQR bounds. -/
def identify_outliers (values : List ℚ) : List ℕ × FloatQ × FloatQ :=
  if values.length < 4 then ([], ⊥, ⊤)
  else
    let b := calculate_iqr_bounds values
    let idxs := (values.enum.filter
      (fun p => decide (toFQ p.2 < b.1) || decide (b.2 < toFQ p.2))).map (·.1)
    (idxs, b.1, b.2)

/-- `calculate_iqr_bounds` of clean_outliers_aggressive.py: same shape with the
more aggressive 2×IQR multiplier. -/
def calculate_iqr_bounds_aggressive (values : List ℚ) : FloatQ × FloatQ :=
  if values.length < 4 then (⊥, ⊤)
  else
    let q1 := npPercentile values 25
    let q3 := npPercentile values 75
    let iqr := q3 - q1
    (toFQ (q1 - 2 * iqr), toFQ (q3 + 2 * iqr))

/-- `[v for i, v in enumerate(values) if i not in outlier_indices]`. -/
def remove_indices (idxs : List ℕ) (values : List ℚ) : List ℚ :=
  (values.enum.filter (fun p => ! idxs.contains p.1)).map (·.2)

/-! ### Modified-Z-score detector (Scripts/plot_resource_utilization.py) -/

/-- `calculate_modified_zscore`: `0.6745 * (x - median) / mad`, with all
z-scores `0` when the MAD is `0`. -/
def calculate_modified_zscore (data : List ℚ) : List ℚ :=
  if data.length = 0 then []
  else
    let median := npMedian data
    let mad := npMedian (data.map (fun x => |x - median|))
    if mad = 0 then List.replicate data.length 0
    else data.map (fun x => 6745 / 10000 * (x - median) / mad)

/-- `remove_outliers` of plot_resource_utilization.py: drop values whose
modified z-score exceeds the threshold in absolute value; give up (returning
the input untouched) when the input has at most 3 points or when fewer than 3
points would remain. -/
def remove_outliers (data : List ℚ) (threshold : ℚ) : List ℚ × List ℚ :=
  if data.length ≤ 3 then (data, [])
  else
    let z := calculate_modified_zscore data
    let pairs := data.zip z
    let outliers := (pairs.filter (fun p => decide (|p.2| > threshold))).map (·.1)
    let cleaned := (pairs.filter (fun p => ! decide (|p.2| > threshold))).map (·.1)
    if cleaned.length < 3 then (data, [])
    else (cleaned, outliers)

/-! ## Real-valued sample statistics

`np.std` is a square root, so standard deviations and coefficients of
variation live in `ℝ`; every function whose result or branching involves them
is `noncomputable` (the rational skeleton above stays computable). -/

/-- `np.std(l, ddof=0) / np.mean(l) * 100`, the inline CV computation of
`detect_cold_start_pattern` (no zero-mean guard in the source; division by
zero yields the junk value `0` here where numpy would produce `inf`/`nan` —
no theorem below touches a zero-mean list at this call site). -/
noncomputable def cvOf (l : List ℚ) : ℝ :=
  Real.sqrt (npVar l) / (npMean l : ℝ) * 100

/-- The stored per-metric statistics record
`{mean, std, min, max, cv_percent, n, values}` shared by the three cleaning
scripts. -/
structure SampleStats where
  mean : ℝ
  std : ℝ
  min : ℝ
  max : ℝ
  cv_percent : ℝ
  n : ℕ
  values : List ℚ

/-- `calculate_statistics`, defined identically in clean_outliers_n10.py,
clean_outliers_aggressive.py and clean_cold_start_outliers.py: all-zero record
on empty input, otherwise population statistics with
`cv = std/mean*100` guarded by `mean != 0`. -/
noncomputable def calculate_statistics (values : List ℚ) : SampleStats :=
  if values = [] then ⟨0, 0, 0, 0, 0, 0, []⟩
  else
    let mean_val := npMean values
    let std_val : ℝ := Real.sqrt (npVar values)
    let cv_percent : ℝ := if mean_val ≠ 0 then std_val / (mean_val : ℝ) * 100 else 0
    ⟨(mean_val : ℝ), std_val, (npMin values : ℝ), (npMax values : ℝ),
      cv_percent, values.length, values⟩

/-! ## Cold-start detector (Scripts/clean_cold_start_outliers.py) -/

/-- `detect_cold_start_pattern`: for prefix lengths 1, 2, 3 that leave at
least 3 remaining values, a prefix whose mean is at least
`threshold_multiplier` times the mean of the remainder is a candidate; the
loop keeps the candidate with the strictly largest CV improvement and the
result is returned only when that improvement exceeds 15 percentage points. -/
noncomputable def detect_cold_start_pattern
    (values : List ℚ) (threshold_multiplier : ℚ) : List ℕ :=
  if values.length < 5 then []
  else
    let step := fun (best : List ℕ × ℝ) (n_outliers : ℕ) =>
      if n_outliers ≥ values.length - 2 then best
      else
        let first_n := values.take n_outliers
        let remaining := values.drop n_outliers
        if npMean first_n ≥ threshold_multiplier * npMean remaining then
          let cv_improvement := cvOf values - cvOf remaining
          if cv_improvement > best.2 then (List.range n_outliers, cv_improvement)
          else best
        else best
    let best := [1, 2, 3].foldl step ([], (0 : ℝ))
    if best.2 > 15 then best.1 else []

/-! ## Whole-file cleaning passes

The three cleaning scripts read `aggregated_results.json`, mutate the parsed
`data` dictionary, and write it back only on status `"cleaned"`.  They are
modelled as pure functions from the parsed file (plus the wall-clock string
that the scripts take from `datetime.now()`) to
(report, post-mutation data, whether the file was written). -/

/-- One cleaning pass's metadata block (`cleaned_at`, `method`, optional
`cv_threshold`, `metrics_cleaned`, and the total outlier count, stored under
the key `total_outliers` or `total_outliers_detected` depending on the
branch). -/
structure PassMeta where
  cleaned_at : String
  method : String
  cv_threshold : Option ℝ
  metrics_cleaned : List String
  total_outliers : ℕ

/-- The `outlier_cleaning` entry of `aggregated_results.json`: flat first-pass
fields plus the optional `cold_start_pass` / `aggressive_pass` sub-blocks. -/
structure OutlierCleaning where
  base : Option PassMeta
  cold_start_pass : Option PassMeta
  aggressive_pass : Option PassMeta

/-- The parsed `aggregated_results.json` as the cleaning scripts see it.
`statistics = []` covers both a missing and an empty `statistics` key
(`'statistics' not in data or not data['statistics']`). -/
structure AggFile where
  n_runs : ℕ
  statistics : List (String × SampleStats)
  outlier_cleaning : Option OutlierCleaning

/-- A per-metric entry of `report['metrics_cleaned']` for the IQR passes
(the nested `before`/`after` summary dictionaries are flattened into
`before_*`/`after_*` fields). -/
structure CleanEntry where
  outlier_indices : List ℕ
  outlier_values : List ℚ
  bounds : FloatQ × FloatQ
  before_mean : ℝ
  before_std : ℝ
  before_cv : ℝ
  before_n : ℕ
  after_mean : ℝ
  after_std : ℝ
  after_cv : ℝ
  after_n : ℕ
  cv_improvement : ℝ

/-- A per-metric entry of `report['metrics_cleaned']` for the cold-start pass
(`pattern: 'cold_start'`, no bounds). -/
structure ColdEntry where
  outlier_indices : List ℕ
  outlier_values : List ℚ
  before_mean : ℝ
  before_std : ℝ
  before_cv : ℝ
  before_n : ℕ
  after_mean : ℝ
  after_std : ℝ
  after_cv : ℝ
  after_n : ℕ
  cv_improvement : ℝ

/-- The report returned by `clean_aggregated_results` (IQR passes). -/
structure CleanReport where
  metrics_cleaned : List (String × CleanEntry)
  outliers_removed : ℕ
  original_n : ℕ
  cleaned_n : ℕ
  status : String

/-- The report returned by the cold-start `clean_aggregated_results`. -/
structure ColdReport where
  metrics_cleaned : List (String × ColdEntry)
  outliers_removed : ℕ
  original_n : ℕ
  cleaned_n : ℕ
  status : String

/-- `min(...)` over a list with a fallback for the (unreachable) empty case. -/
def minOver (fallback : ℕ) (l : List ℕ) : ℕ :=
  match l with
  | [] => fallback
  | h :: t => t.foldl min h

/-- The loop body of clean_outliers_n10.py's `clean_aggregated_results` for a
single metric: skip metrics without values or with fewer than 4 points,
detect 3×IQR outliers, and accept the cleaned statistics only when the CV
improvement (stored `cv_percent` minus recomputed after-CV) is strictly above
10 percentage points and at least 3 values remain. -/
noncomputable def clean_metric_n10 (s : SampleStats) : SampleStats × Option CleanEntry :=
  if s.values = [] then (s, none)
  else if s.values.length < 4 then (s, none)
  else
    let io := identify_outliers s.values
    if io.1 = [] then (s, none)
    else
      let outlier_values := io.1.map (fun i => s.values.getD i 0)
      let after_values := remove_indices io.1 s.values
      let after_stats := calculate_statistics after_values
      let cv_improvement := s.cv_percent - after_stats.cv_percent
      if cv_improvement > 10 ∧ after_values.length ≥ 3 then
        (after_stats,
         some ⟨io.1, outlier_values, io.2, s.mean, s.std, s.cv_percent, s.n,
               after_stats.mean, after_stats.std, after_stats.cv_percent,
               after_stats.n, cv_improvement⟩)
      else (s, none)

/-- clean_outliers_n10.py's `clean_aggregated_results` over the whole file:
per-metric cleaning, then — only when some metric was cleaned — `min`-of-n
bookkeeping, a fresh `outlier_cleaning` block (overwriting any previous one),
status `"cleaned"`, and a write-back of the mutated file. -/
noncomputable def clean_aggregated_results_n10
    (data : AggFile) (now : String) : CleanReport × AggFile × Bool :=
  if data.statistics = [] then
    (⟨[], 0, data.n_runs, data.n_runs, "no_statistics"⟩, data, false)
  else
    let processed := data.statistics.map (fun p => (p.1, clean_metric_n10 p.2))
    let cleaned := processed.filterMap (fun p => p.2.2.map (fun e => (p.1, e)))
    if cleaned = [] then
      (⟨[], 0, data.n_runs, data.n_runs, "no_outliers"⟩, data, false)
    else
      let removed := (cleaned.map (fun p => p.2.outlier_indices.length)).sum
      let newStats := processed.map (fun p => (p.1, p.2.1))
      let meta : PassMeta := ⟨now, "iqr_3x", none, cleaned.map (·.1), removed⟩
      let d2 : AggFile := ⟨data.n_runs, newStats, some ⟨some meta, none, none⟩⟩
      (⟨cleaned, removed, data.n_runs,
        minOver data.n_runs (cleaned.map (fun p => p.2.after_n)), "cleaned"⟩,
       d2, true)

/-- The loop body of clean_outliers_aggressive.py for a single metric: the
caller pre-filters to stored `cv_percent > cv_threshold`; inside the loop
metrics with fewer than 4 values are skipped, outliers use the 2×IQR bounds,
and the gate is `(cv_improvement > 5 or after.cv_percent < 30) and
len(after) >= 3`. -/
noncomputable def clean_metric_aggressive
    (cv_threshold : ℝ) (s : SampleStats) : SampleStats × Option CleanEntry :=
  if ¬ s.cv_percent > cv_threshold then (s, none)
  else if s.values.length < 4 then (s, none)
  else
    let b := calculate_iqr_bounds_aggressive s.values
    let idxs := (s.values.enum.filter
      (fun p => decide (toFQ p.2 < b.1) || decide (b.2 < toFQ p.2))).map (·.1)
    if idxs = [] then (s, none)
    else
      let outlier_values := idxs.map (fun i => s.values.getD i 0)
      let after_values := remove_indices idxs s.values
      let after_stats := calculate_statistics after_values
      let cv_improvement := s.cv_percent - after_stats.cv_percent
      if (cv_improvement > 5 ∨ after_stats.cv_percent < 30) ∧ after_values.length ≥ 3 then
        (after_stats,
         some ⟨idxs, outlier_values, b, s.mean, s.std, s.cv_percent, s.n,
               after_stats.mean, after_stats.std, after_stats.cv_percent,
               after_stats.n, cv_improvement⟩)
      else (s, none)

/-- clean_outliers_aggressive.py's `clean_aggregated_results`: like the
conservative pass but stamping `aggressive_pass` into an existing
`outlier_cleaning` block (or a fresh flat block when absent). -/
noncomputable def clean_aggregated_results_aggressive
    (data : AggFile) (now : String) (cv_threshold : ℝ) : CleanReport × AggFile × Bool :=
  if data.statistics = [] then
    (⟨[], 0, data.n_runs, data.n_runs, "no_statistics"⟩, data, false)
  else
    let processed := data.statistics.map
      (fun p => (p.1, clean_metric_aggressive cv_threshold p.2))
    let cleaned := processed.filterMap (fun p => p.2.2.map (fun e => (p.1, e)))
    if cleaned = [] then
      (⟨[], 0, data.n_runs, data.n_runs, "no_outliers"⟩, data, false)
    else
      let removed := (cleaned.map (fun p => p.2.outlier_indices.length)).sum
      let newStats := processed.map (fun p => (p.1, p.2.1))
      let passMeta : PassMeta :=
        ⟨now, "iqr_2x", some cv_threshold, cleaned.map (·.1), removed⟩
      let freshMeta : PassMeta :=
        ⟨now, "iqr_2x_aggressive", some cv_threshold, cleaned.map (·.1), removed⟩
      let oc : OutlierCleaning :=
        match data.outlier_cleaning with
        | some oc => { oc with aggressive_pass := some passMeta }
        | none => ⟨some freshMeta, none, none⟩
      let d2 : AggFile := ⟨data.n_runs, newStats, some oc⟩
      (⟨cleaned, removed, data.n_runs,
        minOver data.n_runs (cleaned.map (fun p => p.2.after_n)), "cleaned"⟩,
       d2, true)

/-- The loop body of clean_cold_start_outliers.py for a single metric: the
caller pre-filters to stored `cv_percent > 40` with at least 5 values; a
nonempty detection is accepted whenever at least 3 values remain. -/
noncomputable def clean_metric_cold (s : SampleStats) : SampleStats × Option ColdEntry :=
  if ¬ (s.cv_percent > 40 ∧ 5 ≤ s.values.length) then (s, none)
  else
    let idxs := detect_cold_start_pattern s.values 3
    if idxs = [] then (s, none)
    else
      let outlier_values := idxs.map (fun i => s.values.getD i 0)
      let after_values := remove_indices idxs s.values
      let after_stats := calculate_statistics after_values
      let cv_improvement := s.cv_percent - after_stats.cv_percent
      if after_values.length ≥ 3 then
        (after_stats,
         some ⟨idxs, outlier_values, s.mean, s.std, s.cv_percent, s.n,
               after_stats.mean, after_stats.std, after_stats.cv_percent,
               after_stats.n, cv_improvement⟩)
      else (s, none)

/-- clean_cold_start_outliers.py's `clean_aggregated_results`: cold-start
cleaning with status `"no_cold_start"` when nothing was cleaned, stamping
`cold_start_pass` into an existing `outlier_cleaning` block (or a fresh flat
block). -/
noncomputable def clean_aggregated_results_cold
    (data : AggFile) (now : String) : ColdReport × AggFile × Bool :=
  if data.statistics = [] then
    (⟨[], 0, data.n_runs, data.n_runs, "no_statistics"⟩, data, false)
  else
    let processed := data.statistics.map (fun p => (p.1, clean_metric_cold p.2))
    let cleaned := processed.filterMap (fun p => p.2.2.map (fun e => (p.1, e)))
    if cleaned = [] then
      (⟨[], 0, data.n_runs, data.n_runs, "no_cold_start"⟩, data, false)
    else
      let removed := (cleaned.map (fun p => p.2.outlier_indices.length)).sum
      let newStats := processed.map (fun p => (p.1, p.2.1))
      let passMeta : PassMeta :=
        ⟨now, "cold_start_detection", none, cleaned.map (·.1), removed⟩
      let oc : OutlierCleaning :=
        match data.outlier_cleaning with
        | some oc => { oc with cold_start_pass := some passMeta }
        | none => ⟨some passMeta, none, none⟩
      let d2 : AggFile := ⟨data.n_runs, newStats, some oc⟩
      (⟨cleaned, removed, data.n_runs,
        minOver data.n_runs (cleaned.map (fun p => p.2.after_n)), "cleaned"⟩,
       d2, true)

/-! ## Replicate aggregation (Scripts/run_scaling_experiment_n3.py)

A raw run record is modelled by the fields the aggregator reads.  A JSON key
holding `null` and an absent key are both `none` (all consumers use
`dict.get`). -/

/-- One entry of `query_results` (a JSON object; an object with none of these
keys — in particular the empty object `{}`, which is falsy in Python — is the
record with all fields `none`). -/
structure QueryEntry where
  top_k : Option ℚ
  p50_latency_ms : Option ℚ
  avg_latency_ms : Option ℚ
  p95_latency_ms : Option ℚ
  queries_per_second : Option ℚ
deriving DecidableEq

/-- Python truthiness of a `QueryEntry` under this embedding: the object has
at least one key. -/
def QueryEntry.isTruthy (e : QueryEntry) : Bool :=
  e.top_k.isSome || e.p50_latency_ms.isSome || e.avg_latency_ms.isSome ||
    e.p95_latency_ms.isSome || e.queries_per_second.isSome

/-- `query_results` is either a JSON list or a JSON mapping (modelled as an
association list without duplicate keys). -/
inductive QueryResults where
  | qlist : List QueryEntry → QueryResults
  | qdict : List (String × QueryEntry) → QueryResults
deriving DecidableEq

/-- The `ingestion` sub-record. -/
structure Ingestion where
  total_time_sec : Option ℚ
  num_chunks : Option ℚ
deriving DecidableEq

/-- A raw per-run result record. -/
structure RunRecord where
  ingestion : Option Ingestion
  query_results : Option QueryResults
deriving DecidableEq

/-- Mapping lookup `query_data[k]`. -/
def lookupQ (entries : List (String × QueryEntry)) (k : String) : Option QueryEntry :=
  (entries.find? (fun p => p.1 == k)).map (·.2)

/-- The `q`-selection of `extract_metrics`: first list entry with
`top_k == 3` (falling back to the first entry), or mapping key `"3"` then
`"top_k_3"` (falling back to the first value; `none` for the empty, falsy
mapping). -/
def selectTopK3 : QueryResults → Option QueryEntry
  | .qlist items =>
      match items.find? (fun it => it.top_k == some 3) with
      | some q => some q
      | none => items.head?
  | .qdict entries =>
      if (lookupQ entries "3").isSome then lookupQ entries "3"
      else if (lookupQ entries "top_k_3").isSome then lookupQ entries "top_k_3"
      else
        match entries with
        | [] => none
        | e :: _ => some e.2

/-- The metrics dictionary built by `extract_metrics` (keys that are never
inserted and keys inserted with value `None` are both `none`, matching every
consumer's use of `dict.get`). -/
structure Metrics where
  ingestion_time : Option ℚ
  num_chunks : Option ℚ
  p50_latency_ms : Option ℚ
  p95_latency_ms : Option ℚ
  queries_per_second : Option ℚ
deriving DecidableEq

/-- `extract_metrics` of run_scaling_experiment_n3.py. -/
def extract_metrics (results : RunRecord) : Metrics :=
  let base : Metrics :=
    match results.ingestion with
    | some ing => ⟨ing.total_time_sec, ing.num_chunks, none, none, none⟩
    | none => ⟨none, none, none, none, none⟩
  match results.query_results with
  | none => base
  | some query_data =>
    match selectTopK3 query_data with
    | none => base
    | some q =>
      if q.isTruthy then
        { base with
          p50_latency_ms := q.p50_latency_ms <|> q.avg_latency_ms,
          p95_latency_ms := q.p95_latency_ms,
          queries_per_second := q.queries_per_second }
      else base

/-- One entry of `aggregated['statistics']` (mean/min/max stay rational;
`std` is a square root). -/
structure MetricStat where
  mean : ℚ
  std : ℝ
  min : ℚ
  max : ℚ
  values : List ℚ
  n : ℕ

/-- The `statistics` dictionary of an aggregated result, keyed by the five
metric names `extract_metrics` can produce. -/
structure AggStatistics where
  ingestion_time : Option MetricStat
  num_chunks : Option MetricStat
  p50_latency_ms : Option MetricStat
  p95_latency_ms : Option MetricStat
  queries_per_second : Option MetricStat

/-- Dictionary lookup `aggregated['statistics'][key]` /
`key in aggregated['statistics']`: a key other than the five metric names —
in particular the `'total_time_sec'` probed by `aggregate_results` — is never
present. -/
def statGet (s : AggStatistics) (key : String) : Option MetricStat :=
  if key == "ingestion_time" then s.ingestion_time
  else if key == "num_chunks" then s.num_chunks
  else if key == "p50_latency_ms" then s.p50_latency_ms
  else if key == "p95_latency_ms" then s.p95_latency_ms
  else if key == "queries_per_second" then s.queries_per_second
  else none

/-- One statistics entry: `mean/std/min/max/values/n` over the runs that
reported the metric, inserted only when that list is nonempty
(`if values:`). -/
noncomputable def mkStat (values : List ℚ) : Option MetricStat :=
  if values = [] then none
  else some ⟨npMean values, Real.sqrt (npVar values), npMin values,
             npMax values, values, values.length⟩

/-- The in-place update of a list entry with `top_k == 3`: overwrite
p50/p95/QPS with the metric means where those statistics exist. -/
def updateListEntry (stats : AggStatistics) (e : QueryEntry) : QueryEntry :=
  if e.top_k == some 3 then
    { e with
      p50_latency_ms :=
        match stats.p50_latency_ms with
        | some st => some st.mean
        | none => e.p50_latency_ms,
      p95_latency_ms :=
        match stats.p95_latency_ms with
        | some st => some st.mean
        | none => e.p95_latency_ms,
      queries_per_second :=
        match stats.queries_per_second with
        | some st => some st.mean
        | none => e.queries_per_second }
  else e

/-- The in-place update of `query_data['3']` / `query_data['top_k_3']`
(no `top_k` check in the mapping branch of the source). -/
def updateDictEntry (stats : AggStatistics) (e : QueryEntry) : QueryEntry :=
  { e with
    p50_latency_ms :=
      match stats.p50_latency_ms with
      | some st => some st.mean
      | none => e.p50_latency_ms,
    p95_latency_ms :=
      match stats.p95_latency_ms with
      | some st => some st.mean
      | none => e.p95_latency_ms,
    queries_per_second :=
      match stats.queries_per_second with
      | some st => some st.mean
      | none => e.queries_per_second }

/-- The mean-substitution loop over `rep_result['query_results']`: every list
entry with `top_k == 3` (no break in the source), or the mapping entries
under both keys `"3"` and `"top_k_3"`. -/
def updateQueryResults (stats : AggStatistics) : QueryResults → QueryResults
  | .qlist items => .qlist (items.map (updateListEntry stats))
  | .qdict entries =>
      .qdict (entries.map (fun p =>
        if p.1 == "3" || p.1 == "top_k_3" then (p.1, updateDictEntry stats p.2) else p))

/-- The aggregated record built by `aggregate_results`. -/
structure Aggregated where
  n_runs : ℕ
  individual_runs : List RunRecord
  statistics : AggStatistics
  mean_result : RunRecord

/-- `aggregate_results` of run_scaling_experiment_n3.py.  `None` on an empty
input list.  `rep_result = all_results[0].copy()` is a SHALLOW copy: the
nested `ingestion` and `query_results` objects stay shared with
`all_results[0]`, so the in-place mean substitution performed on `rep_result`
is visible through `individual_runs[0]` as well — the embedding makes this
aliasing explicit by placing the same post-mutation record `r0new` both at
the head of `individual_runs` and in `mean_result`.  The ingestion update
probes `statistics` for the key `'total_time_sec'`, which the statistics
dictionary (keyed `'ingestion_time'`) never contains, so that branch is dead
code mirrored faithfully via `statGet`. -/
noncomputable def aggregate_results (all_results : List RunRecord) : Option Aggregated :=
  match all_results with
  | [] => none
  | r0 :: rest =>
    let metrics_list := (r0 :: rest).map extract_metrics
    let stats : AggStatistics :=
      ⟨mkStat (metrics_list.filterMap (·.ingestion_time)),
       mkStat (metrics_list.filterMap (·.num_chunks)),
       mkStat (metrics_list.filterMap (·.p50_latency_ms)),
       mkStat (metrics_list.filterMap (·.p95_latency_ms)),
       mkStat (metrics_list.filterMap (·.queries_per_second))⟩
    let ing1 : Option Ingestion :=
      match r0.ingestion with
      | some ing =>
          match statGet stats "total_time_sec" with
          | some st => some { ing with total_time_sec := some st.mean }
          | none => some ing
      | none => none
    let qr1 : Option QueryResults := r0.query_results.map (updateQueryResults stats)
    let r0new : RunRecord := ⟨ing1, qr1⟩
    some ⟨(r0 :: rest).length, r0new :: rest, stats, r0new⟩

/-! ## Power-law fitting (Scripts/analyze_scaling_with_stats.py) -/

/-- `np.mean` over a list of reals. -/
noncomputable def listMean (l : List ℝ) : ℝ := l.sum / l.length

/-- `fit_scaling_curve`: ordinary least squares of `log y` on `log x`,
returning `(a, b, r_squared)` with `a = exp(intercept)`, `b` the slope and
`r_squared` the squared Pearson correlation of the log-log data.  The source
performs no input validation whatsoever; non-positive inputs flow into
`np.log` (which yields `-inf`/`nan` without raising) — here they flow into
`Real.log`, which likewise never fails and takes junk values on
non-positives. -/
noncomputable def fit_scaling_curve (x y : List ℝ) : ℝ × ℝ × ℝ :=
  let log_x := x.map Real.log
  let log_y := y.map Real.log
  let mx := listMean log_x
  let my := listMean log_y
  let sxx := (log_x.map (fun t => (t - mx) ^ 2)).sum
  let syy := (log_y.map (fun t => (t - my) ^ 2)).sum
  let sxy := (List.zipWith (fun u v => (u - mx) * (v - my)) log_x log_y).sum
  let slope := sxy / sxx
  let intercept := my - slope * mx
  (Real.exp intercept, slope, sxy ^ 2 / (sxx * syy))

/-- The spec's failure mode for invalid fitter input. -/
inductive DomainError where
  | nonPositive
  | badLength
deriving DecidableEq

/-- Modelled from the spec (§4.4 `fit_power_law`), for comparison with the
source's `fit_scaling_curve`: "Requires `len(x) == len(y) >= 2`; all values
strictly positive (zero or negative values fail with a `DomainError`)". -/
noncomputable def fit_power_law (x y : List ℝ) : Except DomainError (ℝ × ℝ × ℝ) :=
  if x.length = y.length ∧ 2 ≤ x.length then
    if ∀ v ∈ x ++ y, 0 < v then Except.ok (fit_scaling_curve x y)
    else Except.error DomainError.nonPositive
  else Except.error DomainError.badLength

/-! ## Helper lemmas -/

/-- Every element of a sorted list is an element of the original list. -/
theorem mem_of_mem_insertionSort {l : List ℚ} {x : ℚ}
    (h : x ∈ List.insertionSort (· ≤ ·) l) : x ∈ l :=
  (List.perm_insertionSort (· ≤ ·) l).mem_iff.mp h

/-- `getD` on a list of identical elements returns that element. -/
theorem getD_of_const {l : List ℚ} {c : ℚ} (hc : ∀ x ∈ l, x = c) {i : ℕ}
    (hi : i < l.length) : l.getD i 0 = c := by
  rw [List.getD_eq_getElem l 0 hi]
  exact hc _ (List.getElem_mem hi)

/-- The median of a nonempty constant list is that constant. -/
theorem npMedian_const {l : List ℚ} {c : ℚ} (hne : l ≠ [])
    (hc : ∀ x ∈ l, x = c) : npMedian l = c := by
  have hlen : (List.insertionSort (· ≤ ·) l).length = l.length :=
    List.length_insertionSort (· ≤ ·) l
  have hcs : ∀ x ∈ List.insertionSort (· ≤ ·) l, x = c :=
    fun x hx => hc x (mem_of_mem_insertionSort hx)
  have hpos : 0 < l.length := List.length_pos.mpr hne
  unfold npMedian
  simp only [hlen]
  rcases Nat.eq_zero_or_pos l.length with h0 | hlp
  · omega
  · have hne2 : ¬ l.length = 0 := by omega
    simp only [if_neg hne2]
    by_cases hodd : l.length % 2 = 1
    · simp only [if_pos hodd]
      exact getD_of_const hcs (by omega)
    · simp only [if_neg hodd]
      have h1 : (List.insertionSort (· ≤ ·) l).getD (l.length / 2 - 1) 0 = c :=
        getD_of_const hcs (by omega)
      have h2 : (List.insertionSort (· ≤ ·) l).getD (l.length / 2) 0 = c :=
        getD_of_const hcs (by omega)
      rw [h1, h2]
      ring

/-- All modified z-scores of a nonempty constant list are `0` (the MAD is
`0`, so the division is never reached). -/
theorem modified_zscore_const {l : List ℚ} {c : ℚ} (hne : l ≠ [])
    (hc : ∀ x ∈ l, x = c) :
    calculate_modified_zscore l = List.replicate l.length 0 := by
  unfold calculate_modified_zscore
  have hlen0 : ¬ l.length = 0 := by
    simpa [List.length_eq_zero] using hne
  simp only [if_neg hlen0]
  have hmed : npMedian l = c := npMedian_const hne hc
  have habs : ∀ x ∈ l.map (fun x => |x - npMedian l|), x = 0 := by
    intro x hx
    rcases List.mem_map.mp hx with ⟨a, ha, rfl⟩
    rw [hmed, hc a ha]
    simp
  have hmapne : l.map (fun x => |x - npMedian l|) ≠ [] := by
    simpa using hne
  have hmad : npMedian (l.map (fun x => |x - npMedian l|)) = 0 :=
    npMedian_const hmapne habs
  simp only [hmad, if_pos]

/-- `remove_outliers` leaves a constant list of length at least 4 untouched
for every positive threshold. -/
theorem remove_outliers_const {l : List ℚ} {c t : ℚ} (h4 : 4 ≤ l.length)
    (hc : ∀ x ∈ l, x = c) (ht : 0 < t) :
    remove_outliers l t = (l, []) := by
  have hne : l ≠ [] := by
    intro h
    rw [h] at h4
    simp at h4
  have hz := modified_zscore_const hne hc
  unfold remove_outliers
  have h3 : ¬ l.length ≤ 3 := by omega
  simp only [if_neg h3, hz]
  have hzip2 : ∀ p ∈ l.zip (List.replicate l.length (0 : ℚ)), p.2 = 0 :=
    fun p hp => List.eq_of_mem_replicate (List.of_mem_zip hp).2
  have hOut : ((l.zip (List.replicate l.length (0 : ℚ))).filter
      (fun p => decide (|p.2| > t))) = [] := by
    rw [List.filter_eq_nil_iff]
    intro p hp
    rw [hzip2 p hp]
    simp
    linarith
  have hClean : ((l.zip (List.replicate l.length (0 : ℚ))).filter
      (fun p => ! decide (|p.2| > t))) = l.zip (List.replicate l.length (0 : ℚ)) := by
    rw [List.filter_eq_self]
    intro p hp
    rw [hzip2 p hp]
    simp
    linarith
  simp only [hOut, hClean, List.map_nil]
  have hfst : (l.zip (List.replicate l.length (0 : ℚ))).map (·.1) = l := by
    exact List.map_fst_zip l _ (by simp)
  rw [hfst]
  simp only [if_neg (by omega : ¬ l.length < 3)]

/-- C9: on any list of at least 4 identical values the MAD is zero, every
modified z-score is `0` (the division by the MAD is never reached), and
`remove_outliers` flags nothing for every positive threshold. -/
theorem c9_mad_zero_no_outliers (l : List ℚ) (c t : ℚ) (h4 : 4 ≤ l.length)
    (hc : ∀ x ∈ l, x = c) (ht : 0 < t) :
    calculate_modified_zscore l = List.replicate l.length 0 ∧
      remove_outliers l t = (l, []) := by
  have hne : l ≠ [] := by
    intro h
    rw [h] at h4
    simp at h4
  exact ⟨modified_zscore_const hne hc, remove_outliers_const h4 hc ht⟩

/-- Witness for C9 at the spec's example `[5,5,5,5,5]` with the default
threshold `3.5`. -/
theorem c9_mad_zero_no_outliers_witness :
    calculate_modified_zscore [5, 5, 5, 5, 5] = List.replicate 5 0 ∧
      remove_outliers [5, 5, 5, 5, 5] (35 / 10) = ([5, 5, 5, 5, 5], []) := by
  have h := c9_mad_zero_no_outliers [5, 5, 5, 5, 5] 5 (35 / 10)
    (by norm_num)
    (by
      intro x hx
      simp at hx
      exact hx)
    (by norm_num)
  simpa using h

/-- `calculate_statistics` stores the input values verbatim. -/
theorem calculate_statistics_values (values : List ℚ) :
    (calculate_statistics values).values = values := by
  unfold calculate_statistics
  split
  · simp_all
  · rfl

/-- `calculate_statistics` stores `n = len(values)`. -/
theorem calculate_statistics_n (values : List ℚ) :
    (calculate_statistics values).n = values.length := by
  unfold calculate_statistics
  split
  · simp_all
  · rfl

/-- A sample with zero variance has `cv_percent = 0`. -/
theorem calculate_statistics_cv_zero {values : List ℚ} (hne : values ≠ [])
    (hvar : npVar values = 0) :
    (calculate_statistics values).cv_percent = 0 := by
  unfold calculate_statistics
  simp only [if_neg hne]
  show (if npMean values ≠ 0
        then Real.sqrt ((npVar values : ℝ)) / (npMean values : ℝ) * 100 else 0) = 0
  have hv : ((npVar values : ℚ) : ℝ) = 0 := by exact_mod_cast hvar
  rw [hv, Real.sqrt_zero]
  split <;> simp

/-- With only the three values `[50, 52, 900]` the conservative metric pass
skips the metric before invoking the detector (fewer than 4 points). -/
theorem clean_metric_n10_skips_50_52_900 :
    clean_metric_n10 (calculate_statistics [50, 52, 900]) =
      (calculate_statistics [50, 52, 900], none) := by
  unfold clean_metric_n10
  rw [calculate_statistics_values]
  norm_num

/-- C6 counterexample: on stored values `[50, 52, 900]` the conservative IQR
pass flags nothing at all — `identify_outliers` requires at least 4 points and
returns the empty index list, and the per-metric pass is a no-op — so the
claimed flagging of index 2 with after-statistics `{mean: 51, n: 2}` never
happens. -/
theorem c6_three_values_counterexample :
    identify_outliers [50, 52, 900] = ([], ⊥, ⊤) ∧
      (clean_metric_n10 (calculate_statistics [50, 52, 900])).2 = none := by
  constructor
  · unfold identify_outliers
    norm_num
  · rw [clean_metric_n10_skips_50_52_900]

/-- C6 amended: for a metric with the three stored latencies `[50, 52, 900]`
the conservative IQR pass skips the metric entirely (at least 4 points are
needed for IQR), flags no index and computes no after-statistics, leaves the
statistics unmodified, records no `outlier_cleaning` entry, does not write the
file, and reports `no_outliers`. -/
theorem c6_three_values_amended :
    clean_aggregated_results_n10
        ⟨3, [("p50_latency_ms", calculate_statistics [50, 52, 900])], none⟩ "now" =
      (⟨[], 0, 3, 3, "no_outliers"⟩,
       ⟨3, [("p50_latency_ms", calculate_statistics [50, 52, 900])], none⟩, false) := by
  unfold clean_aggregated_results_n10
  simp only [List.map_cons, List.map_nil, clean_metric_n10_skips_50_52_900,
    List.filterMap_cons, List.filterMap_nil, Option.map_none]
  norm_num

/-! ## C10: a cleaning pass writes the file only on status `"cleaned"` -/

/-- Case analysis of the conservative pass: either nothing is written and the
on-disk data is unchanged (with a status other than `"cleaned"`), or the file
is written with status `"cleaned"` and a stamped `outlier_cleaning` block. -/
theorem clean_n10_cases (data : AggFile) (now : String) :
    (∃ r, clean_aggregated_results_n10 data now = (r, data, false) ∧
      r.status ≠ "cleaned") ∨
    (∃ r d2, clean_aggregated_results_n10 data now = (r, d2, true) ∧
      r.status = "cleaned" ∧ d2.outlier_cleaning.isSome = true) := by
  unfold clean_aggregated_results_n10
  split
  · refine Or.inl ⟨_, rfl, ?_⟩
    simp
  · dsimp only
    split
    · refine Or.inl ⟨_, rfl, ?_⟩
      simp
    · exact Or.inr ⟨_, _, rfl, rfl, rfl⟩

/-- Case analysis of the aggressive pass (same shape). -/
theorem clean_aggressive_cases (data : AggFile) (now : String) (ct : ℝ) :
    (∃ r, clean_aggregated_results_aggressive data now ct = (r, data, false) ∧
      r.status ≠ "cleaned") ∨
    (∃ r d2, clean_aggregated_results_aggressive data now ct = (r, d2, true) ∧
      r.status = "cleaned" ∧ d2.outlier_cleaning.isSome = true) := by
  unfold clean_aggregated_results_aggressive
  split
  · refine Or.inl ⟨_, rfl, ?_⟩
    simp
  · dsimp only
    split
    · refine Or.inl ⟨_, rfl, ?_⟩
      simp
    · exact Or.inr ⟨_, _, rfl, rfl, rfl⟩

/-- Case analysis of the cold-start pass (same shape). -/
theorem clean_cold_cases (data : AggFile) (now : String) :
    (∃ r, clean_aggregated_results_cold data now = (r, data, false) ∧
      r.status ≠ "cleaned") ∨
    (∃ r d2, clean_aggregated_results_cold data now = (r, d2, true) ∧
      r.status = "cleaned" ∧ d2.outlier_cleaning.isSome = true) := by
  unfold clean_aggregated_results_cold
  split
  · refine Or.inl ⟨_, rfl, ?_⟩
    simp
  · dsimp only
    split
    · refine Or.inl ⟨_, rfl, ?_⟩
      simp
    · exact Or.inr ⟨_, _, rfl, rfl, rfl⟩

/-- C10: each of the three cleaning scripts writes `aggregated_results.json`
back only when the pass ends with status `"cleaned"`; when it ends with
`no_outliers` / `no_cold_start` / `no_statistics` nothing is written and the
on-disk data (statistics and any prior `outlier_cleaning` metadata) is
unchanged, and whenever a write happens the status is `"cleaned"` and an
`outlier_cleaning` block is stamped into the written file. -/
theorem c10_write_iff_cleaned (data : AggFile) (now : String) (ct : ℝ) :
    ((clean_aggregated_results_n10 data now).1.status ≠ "cleaned" →
      (clean_aggregated_results_n10 data now).2 = (data, false)) ∧
    ((clean_aggregated_results_n10 data now).2.2 = true →
      (clean_aggregated_results_n10 data now).1.status = "cleaned" ∧
      (clean_aggregated_results_n10 data now).2.1.outlier_cleaning.isSome = true) ∧
    ((clean_aggregated_results_aggressive data now ct).1.status ≠ "cleaned" →
      (clean_aggregated_results_aggressive data now ct).2 = (data, false)) ∧
    ((clean_aggregated_results_aggressive data now ct).2.2 = true →
      (clean_aggregated_results_aggressive data now ct).1.status = "cleaned" ∧
      (clean_aggregated_results_aggressive data now ct).2.1.outlier_cleaning.isSome = true) ∧
    ((clean_aggregated_results_cold data now).1.status ≠ "cleaned" →
      (clean_aggregated_results_cold data now).2 = (data, false)) ∧
    ((clean_aggregated_results_cold data now).2.2 = true →
      (clean_aggregated_results_cold data now).1.status = "cleaned" ∧
      (clean_aggregated_results_cold data now).2.1.outlier_cleaning.isSome = true) := by
  refine ⟨?_, ?_, ?_, ?_, ?_, ?_⟩
  · intro h
    rcases clean_n10_cases data now with ⟨r, heq, _⟩ | ⟨r, d2, heq, hs, _⟩
    · rw [heq]
    · rw [heq] at h
      exact absurd hs h
  · intro h
    rcases clean_n10_cases data now with ⟨r, heq, _⟩ | ⟨r, d2, heq, hs, hm⟩
    · rw [heq] at h
      simp at h
    · rw [heq]
      exact ⟨hs, hm⟩
  · intro h
    rcases clean_aggressive_cases data now ct with ⟨r, heq, _⟩ | ⟨r, d2, heq, hs, _⟩
    · rw [heq]
    · rw [heq] at h
      exact absurd hs h
  · intro h
    rcases clean_aggressive_cases data now ct with ⟨r, heq, _⟩ | ⟨r, d2, heq, hs, hm⟩
    · rw [heq] at h
      simp at h
    · rw [heq]
      exact ⟨hs, hm⟩
  · intro h
    rcases clean_cold_cases data now with ⟨r, heq, _⟩ | ⟨r, d2, heq, hs, _⟩
    · rw [heq]
    · rw [heq] at h
      exact absurd hs h
  · intro h
    rcases clean_cold_cases data now with ⟨r, heq, _⟩ | ⟨r, d2, heq, hs, hm⟩
    · rw [heq] at h
      simp at h
    · rw [heq]
      exact ⟨hs, hm⟩

/-- Witness for C10 at a concrete file: a file with no statistics is reported
`"no_statistics"` by all three passes and nothing is written. -/
theorem c10_write_iff_cleaned_witness :
    (clean_aggregated_results_n10 ⟨10, [], none⟩ "now").1.status ≠ "cleaned" ∧
      (clean_aggregated_results_n10 ⟨10, [], none⟩ "now").2 =
        ((⟨10, [], none⟩ : AggFile), false) := by
  have h := (c10_write_iff_cleaned ⟨10, [], none⟩ "now" 40).1
  have hs : (clean_aggregated_results_n10 ⟨10, [], none⟩ "now").1.status =
      "no_statistics" := by
    unfold clean_aggregated_results_n10
    norm_num
  refine ⟨?_, ?_⟩
  · rw [hs]
    decide
  · exact h (by rw [hs]; decide)

/-! ## C8: accepted cleanings keep at least 3 samples -/

/-- The conservative metric pass either leaves the stats untouched or replaces
them with after-statistics over at least 3 remaining values. -/
theorem clean_metric_n10_spec (s : SampleStats) :
    clean_metric_n10 s = (s, none) ∨
      (3 ≤ (remove_indices (identify_outliers s.values).1 s.values).length ∧
        (clean_metric_n10 s).1 =
          calculate_statistics (remove_indices (identify_outliers s.values).1 s.values)) := by
  unfold clean_metric_n10
  split
  · exact Or.inl rfl
  · split
    · exact Or.inl rfl
    · dsimp only
      split
      · exact Or.inl rfl
      · split
        · next h => exact Or.inr ⟨h.2, rfl⟩
        · exact Or.inl rfl

/-- The aggressive metric pass either leaves the stats untouched or replaces
them with after-statistics over at least 3 remaining values. -/
theorem clean_metric_aggressive_spec (ct : ℝ) (s : SampleStats) :
    clean_metric_aggressive ct s = (s, none) ∨
      ∃ idxs : List ℕ,
        3 ≤ (remove_indices idxs s.values).length ∧
          (clean_metric_aggressive ct s).1 =
            calculate_statistics (remove_indices idxs s.values) := by
  unfold clean_metric_aggressive
  split
  · exact Or.inl rfl
  · split
    · exact Or.inl rfl
    · dsimp only
      split
      · exact Or.inl rfl
      · split
        · next h => exact Or.inr ⟨_, h.2, rfl⟩
        · exact Or.inl rfl

/-- The cold-start metric pass either leaves the stats untouched or replaces
them with after-statistics over at least 3 remaining values. -/
theorem clean_metric_cold_spec (s : SampleStats) :
    clean_metric_cold s = (s, none) ∨
      (3 ≤ (remove_indices (detect_cold_start_pattern s.values 3) s.values).length ∧
        (clean_metric_cold s).1 =
          calculate_statistics (remove_indices (detect_cold_start_pattern s.values 3) s.values)) := by
  unfold clean_metric_cold
  split
  · exact Or.inl rfl
  · dsimp only
    split
    · exact Or.inl rfl
    · split
      · next h => exact Or.inr ⟨h, rfl⟩
      · exact Or.inl rfl

/-- `remove_outliers` either returns the input untouched (with no outliers) or
a cleaned list of at least 3 values. -/
theorem remove_outliers_spec (data : List ℚ) (t : ℚ) :
    remove_outliers data t = (data, []) ∨
      3 ≤ (remove_outliers data t).1.length := by
  unfold remove_outliers
  split
  · exact Or.inl rfl
  · dsimp only
    split
    · exact Or.inl rfl
    · next h =>
        refine Or.inr ?_
        dsimp only
        omega

/-- C8: every pass that modifies a metric's stored statistics leaves
`n >= 3`; symmetrically, a detection whose removal would keep fewer than 3
values is discarded entirely, returning the original data with no outliers.
The four passes are the conservative 3×IQR pass, the aggressive 2×IQR pass,
the cold-start pass, and modified-Z `remove_outliers`. -/
theorem c8_accepted_cleaning_keeps_three (s1 s2 s3 : SampleStats) (ct : ℝ)
    (data : List ℚ) (t : ℚ)
    (hn10 : (clean_metric_n10 s1).1 ≠ s1)
    (hagg : (clean_metric_aggressive ct s2).1 ≠ s2)
    (hcold : (clean_metric_cold s3).1 ≠ s3)
    (hmz : (remove_outliers data t).1 ≠ data) :
    3 ≤ (clean_metric_n10 s1).1.n ∧
      3 ≤ (clean_metric_aggressive ct s2).1.n ∧
      3 ≤ (clean_metric_cold s3).1.n ∧
      3 ≤ (remove_outliers data t).1.length ∧
      (∀ s : SampleStats,
        (remove_indices (identify_outliers s.values).1 s.values).length < 3 →
          clean_metric_n10 s = (s, none)) ∧
      (∀ s : SampleStats,
        (remove_indices (detect_cold_start_pattern s.values 3) s.values).length < 3 →
          clean_metric_cold s = (s, none)) := by
  refine ⟨?_, ?_, ?_, ?_, ?_, ?_⟩
  · rcases clean_metric_n10_spec s1 with heq | ⟨h3, h1⟩
    · rw [heq] at hn10
      exact absurd rfl hn10
    · rw [h1, calculate_statistics_n]
      exact h3
  · rcases clean_metric_aggressive_spec ct s2 with heq | ⟨idxs, h3, h1⟩
    · rw [heq] at hagg
      exact absurd rfl hagg
    · rw [h1, calculate_statistics_n]
      exact h3
  · rcases clean_metric_cold_spec s3 with heq | ⟨h3, h1⟩
    · rw [heq] at hcold
      exact absurd rfl hcold
    · rw [h1, calculate_statistics_n]
      exact h3
  · rcases remove_outliers_spec data t with heq | h3
    · rw [heq] at hmz
      exact absurd rfl hmz
    · exact h3
  · intro s hlt
    rcases clean_metric_n10_spec s with heq | ⟨h3, _⟩
    · exact heq
    · omega
  · intro s hlt
    rcases clean_metric_cold_spec s with heq | ⟨h3, _⟩
    · exact heq
    · omega

/-! ## Concrete evaluations shared by witnesses and claim instances -/

/-- Comparison of finite extended rationals reduces to `ℚ`. -/
theorem toFQ_lt {a b : ℚ} : toFQ a < toFQ b ↔ a < b := by
  unfold toFQ
  rw [WithBot.coe_lt_coe, WithTop.coe_lt_coe]

theorem q1_9s : npPercentile [9, 9, 9, 9, 100] 25 = 9 := by
  norm_num [npPercentile, List.insertionSort, List.orderedInsert, natFloorPos,
    show Int.toNat 1 = 1 from rfl]

theorem q3_9s : npPercentile [9, 9, 9, 9, 100] 75 = 9 := by
  norm_num [npPercentile, List.insertionSort, List.orderedInsert, natFloorPos,
    show Int.toNat 3 = 3 from rfl]

/-- With one large value among four identical ones the quartiles coincide, the
IQR is zero and the large value is flagged. -/
theorem identify_9s : identify_outliers [9, 9, 9, 9, 100] = ([4], toFQ 9, toFQ 9) := by
  unfold identify_outliers calculate_iqr_bounds
  rw [q1_9s, q3_9s]
  norm_num [List.enum, List.enumFrom, List.filter, toFQ_lt]

theorem remove_9s : remove_indices [4] [9, 9, 9, 9, 100] = [9, 9, 9, 9] := by
  norm_num [remove_indices, List.enum, List.enumFrom, List.filter]

theorem agg_bounds_9s :
    calculate_iqr_bounds_aggressive [9, 9, 9, 9, 100] = (toFQ 9, toFQ 9) := by
  unfold calculate_iqr_bounds_aggressive
  rw [q1_9s, q3_9s]
  norm_num

/-- Lower bound on the CV of `[30, 28, 9, 8, 9, 10]` (variance `806/9`,
mean `47/3`). -/
theorem cv_30_lb : (2800 / 47 : ℝ) < cvOf [30, 28, 9, 8, 9, 10] := by
  have hvar : npVar [30, 28, 9, 8, 9, 10] = 806 / 9 := by norm_num [npVar, npMean]
  have hmean : npMean [30, 28, 9, 8, 9, 10] = 47 / 3 := by norm_num [npMean]
  unfold cvOf
  rw [hvar, hmean]
  have h1 : (28 / 3 : ℝ) < Real.sqrt ((806 / 9 : ℚ) : ℝ) := by
    rw [show ((806 / 9 : ℚ) : ℝ) = 806 / 9 by norm_num]
    rw [Real.lt_sqrt (by norm_num)]
    norm_num
  have h2 : ((47 / 3 : ℚ) : ℝ) = 47 / 3 := by norm_num
  rw [h2]
  nlinarith [h1]

/-- Upper bound on the CV of `[9, 8, 9, 10]` (variance `1/2`, mean `9`). -/
theorem cv_rem_ub : cvOf [9, 8, 9, 10] < 25 / 3 := by
  have hvar : npVar [9, 8, 9, 10] = 1 / 2 := by norm_num [npVar, npMean]
  have hmean : npMean [9, 8, 9, 10] = 9 := by norm_num [npMean]
  unfold cvOf
  rw [hvar, hmean]
  have h1 : Real.sqrt ((1 / 2 : ℚ) : ℝ) < 3 / 4 := by
    rw [show ((1 / 2 : ℚ) : ℝ) = 1 / 2 by norm_num]
    rw [Real.sqrt_lt' (by norm_num)]
    norm_num
  have h0 : (0 : ℝ) ≤ Real.sqrt ((1 / 2 : ℚ) : ℝ) := Real.sqrt_nonneg _
  have h2 : ((9 : ℚ) : ℝ) = 9 := by norm_num
  rw [h2]
  nlinarith [h1, h0]

/-- The cold-start detector fires on `[30, 28, 9, 8, 9, 10]` and selects the
first two indices (the `n_outliers = 2` candidate: `29 >= 3·9`, with CV
improvement above 15 percentage points). -/
theorem detect_30 : detect_cold_start_pattern [30, 28, 9, 8, 9, 10] 3 = [0, 1] := by
  have hgt0 : cvOf [30, 28, 9, 8, 9, 10] - cvOf [9, 8, 9, 10] > 0 := by
    have := cv_30_lb
    have := cv_rem_ub
    linarith
  have hgt15 : cvOf [30, 28, 9, 8, 9, 10] - cvOf [9, 8, 9, 10] > 15 := by
    have := cv_30_lb
    have := cv_rem_ub
    linarith
  unfold detect_cold_start_pattern
  norm_num [List.foldl_cons, List.foldl_nil, npMean, hgt0, hgt15]
  decide

/-- On the reordered multiset `[9, 8, 9, 10, 30, 28]` no prefix satisfies the
3× mean test, so the detector returns nothing. -/
theorem detect_9 : detect_cold_start_pattern [9, 8, 9, 10, 30, 28] 3 = [] := by
  unfold detect_cold_start_pattern
  norm_num [List.foldl_cons, List.foldl_nil, npMean]

theorem remove_01_30 :
    remove_indices [0, 1] [30, 28, 9, 8, 9, 10] = [9, 8, 9, 10] := by
  norm_num [remove_indices, List.enum, List.enumFrom, List.filter]

/-- The stored statistics used as the C8 witness for the two IQR passes:
stored CV 50%, five values with one extreme point. -/
noncomputable def c8s1 : SampleStats := ⟨46, 36, 9, 100, 50, 5, [9, 9, 9, 9, 100]⟩

/-- The stored statistics used as the C8 witness for the cold-start pass:
stored CV 61%, six values with a two-run cold-start prefix. -/
noncomputable def c8s3 : SampleStats := ⟨16, 9, 8, 30, 61, 6, [30, 28, 9, 8, 9, 10]⟩

theorem clean_metric_n10_c8 :
    (clean_metric_n10 c8s1).1 = calculate_statistics [9, 9, 9, 9] := by
  have hcv : (calculate_statistics [9, 9, 9, 9]).cv_percent = 0 :=
    calculate_statistics_cv_zero (by simp) (by norm_num [npVar, npMean])
  unfold clean_metric_n10 c8s1
  norm_num [identify_9s, remove_9s, hcv]
  simp

theorem clean_metric_aggressive_c8 :
    (clean_metric_aggressive 40 c8s1).1 = calculate_statistics [9, 9, 9, 9] := by
  have hcv : (calculate_statistics [9, 9, 9, 9]).cv_percent = 0 :=
    calculate_statistics_cv_zero (by simp) (by norm_num [npVar, npMean])
  unfold clean_metric_aggressive c8s1
  norm_num [agg_bounds_9s, List.enum, List.enumFrom, List.filter, toFQ_lt,
    remove_9s, hcv]

theorem clean_metric_cold_c8 :
    (clean_metric_cold c8s3).1 = calculate_statistics [9, 8, 9, 10] := by
  unfold clean_metric_cold c8s3
  norm_num [detect_30, remove_01_30]
  simp

theorem zscore_8s : calculate_modified_zscore [8, 9, 10, 11, 100] =
    [-1349 / 1000, -6745 / 10000, 0, 6745 / 10000, 12141 / 200] := by
  norm_num [calculate_modified_zscore, npMedian, List.insertionSort,
    List.orderedInsert]

theorem remove_outliers_8s :
    remove_outliers [8, 9, 10, 11, 100] (35 / 10) = ([8, 9, 10, 11], [100]) := by
  unfold remove_outliers
  norm_num [zscore_8s, List.zip, List.zipWith, List.filter_cons, abs_div]

/-- Witness for C8: a file metric with stored values `[9, 9, 9, 9, 100]` is
modified by both IQR passes, one with stored values `[30, 28, 9, 8, 9, 10]`
is modified by the cold-start pass, and `[8, 9, 10, 11, 100]` is cleaned by
the modified-Z pass — every accepted result keeps at least 3 samples. -/
theorem c8_accepted_cleaning_keeps_three_witness :
    3 ≤ (clean_metric_n10 c8s1).1.n ∧
      3 ≤ (clean_metric_aggressive 40 c8s1).1.n ∧
      3 ≤ (clean_metric_cold c8s3).1.n ∧
      3 ≤ (remove_outliers [8, 9, 10, 11, 100] (35 / 10)).1.length := by
  have h1 : (clean_metric_n10 c8s1).1 ≠ c8s1 := by
    rw [clean_metric_n10_c8]
    intro h
    have hn := congrArg SampleStats.n h
    rw [calculate_statistics_n] at hn
    simp [c8s1] at hn
  have h2 : (clean_metric_aggressive 40 c8s1).1 ≠ c8s1 := by
    rw [clean_metric_aggressive_c8]
    intro h
    have hn := congrArg SampleStats.n h
    rw [calculate_statistics_n] at hn
    simp [c8s1] at hn
  have h3 : (clean_metric_cold c8s3).1 ≠ c8s3 := by
    rw [clean_metric_cold_c8]
    intro h
    have hn := congrArg SampleStats.n h
    rw [calculate_statistics_n] at hn
    simp [c8s3] at hn
  have h4 : (remove_outliers [8, 9, 10, 11, 100] (35 / 10)).1 ≠
      [8, 9, 10, 11, 100] := by
    rw [remove_outliers_8s]
    simp
  have h := c8_accepted_cleaning_keeps_three c8s1 c8s1 c8s3 40
    [8, 9, 10, 11, 100] (35 / 10) h1 h2 h3 h4
  exact ⟨h.1, h.2.1, h.2.2.1, h.2.2.2.1⟩

/-! ## C3: the cold-start detector -/

/-- The loop body of `detect_cold_start_pattern` (with the default
`threshold_multiplier = 3`), named so the fold can be reasoned about. -/
noncomputable def coldStep (values : List ℚ) (best : List ℕ × ℝ)
    (n_outliers : ℕ) : List ℕ × ℝ :=
  if n_outliers ≥ values.length - 2 then best
  else
    let first_n := values.take n_outliers
    let remaining := values.drop n_outliers
    if npMean first_n ≥ 3 * npMean remaining then
      let cv_improvement := cvOf values - cvOf remaining
      if cv_improvement > best.2 then (List.range n_outliers, cv_improvement)
      else best
    else best

/-- `detect_cold_start_pattern` at the default multiplier is the fold of
`coldStep`. -/
theorem detect_eq_fold (values : List ℚ) :
    detect_cold_start_pattern values 3 =
      if values.length < 5 then []
      else
        if ([1, 2, 3].foldl (coldStep values) ([], (0 : ℝ))).2 > 15 then
          ([1, 2, 3].foldl (coldStep values) ([], (0 : ℝ))).1
        else [] := rfl

/-- The invariant carried through the candidate loop: the running best is
either the initial `([], 0)` or a processed candidate's
`(range n, cv-improvement)`, its score is nonnegative, and it dominates the
CV improvement of every processed candidate. -/
def ColdInv (values : List ℚ) (L : List ℕ) (b : List ℕ × ℝ) : Prop :=
  (b = ([], 0) ∨ ∃ n ∈ L, ¬ n ≥ values.length - 2 ∧
      npMean (values.take n) ≥ 3 * npMean (values.drop n) ∧
      b = (List.range n, cvOf values - cvOf (values.drop n))) ∧
    (0 : ℝ) ≤ b.2 ∧
    ∀ m ∈ L, ¬ m ≥ values.length - 2 →
      npMean (values.take m) ≥ 3 * npMean (values.drop m) →
      cvOf values - cvOf (values.drop m) ≤ b.2

/-- `coldStep` preserves the loop invariant. -/
theorem coldStep_inv (values : List ℚ) (L : List ℕ) (b : List ℕ × ℝ) (n : ℕ)
    (h : ColdInv values L b) : ColdInv values (L ++ [n]) (coldStep values b n) := by
  obtain ⟨hbest, hnn, hdom⟩ := h
  have hmono : (b = ([], 0) ∨ ∃ k ∈ L, ¬ k ≥ values.length - 2 ∧
      npMean (values.take k) ≥ 3 * npMean (values.drop k) ∧
      b = (List.range k, cvOf values - cvOf (values.drop k))) →
      (b = ([], 0) ∨ ∃ k ∈ L ++ [n], ¬ k ≥ values.length - 2 ∧
        npMean (values.take k) ≥ 3 * npMean (values.drop k) ∧
        b = (List.range k, cvOf values - cvOf (values.drop k))) := by
    rintro (h0 | ⟨k, hk, h1, h2, h3⟩)
    · exact Or.inl h0
    · exact Or.inr ⟨k, List.mem_append_left _ hk, h1, h2, h3⟩
  unfold coldStep
  by_cases h1 : n ≥ values.length - 2
  · rw [if_pos h1]
    refine ⟨hmono hbest, hnn, ?_⟩
    intro m hm hmc hmm
    rcases List.mem_append.mp hm with hmL | hmn
    · exact hdom m hmL hmc hmm
    · rw [List.mem_singleton] at hmn
      subst hmn
      exact absurd h1 hmc
  · rw [if_neg h1]
    by_cases h2 : npMean (values.take n) ≥ 3 * npMean (values.drop n)
    · rw [if_pos h2]
      dsimp only
      by_cases h3 : cvOf values - cvOf (values.drop n) > b.2
      · rw [if_pos h3]
        refine ⟨Or.inr ⟨n, List.mem_append_right _ (List.mem_singleton_self n),
          h1, h2, rfl⟩, le_of_lt (lt_of_le_of_lt hnn h3), ?_⟩
        intro m hm hmc hmm
        rcases List.mem_append.mp hm with hmL | hmn
        · exact le_trans (hdom m hmL hmc hmm) (le_of_lt h3)
        · rw [List.mem_singleton] at hmn
          subst hmn
          exact le_refl _
      · rw [if_neg h3]
        refine ⟨hmono hbest, hnn, ?_⟩
        intro m hm hmc hmm
        rcases List.mem_append.mp hm with hmL | hmn
        · exact hdom m hmL hmc hmm
        · rw [List.mem_singleton] at hmn
          subst hmn
          exact le_of_not_lt h3
    · rw [if_neg h2]
      refine ⟨hmono hbest, hnn, ?_⟩
      intro m hm hmc hmm
      rcases List.mem_append.mp hm with hmL | hmn
      · exact hdom m hmL hmc hmm
      · rw [List.mem_singleton] at hmn
        subst hmn
        exact absurd hmm h2

/-- The loop invariant holds for the completed fold over `[1, 2, 3]`. -/
theorem coldInv_fold (values : List ℚ) :
    ColdInv values [1, 2, 3] ([1, 2, 3].foldl (coldStep values) ([], (0 : ℝ))) := by
  have i0 : ColdInv values [] ([], (0 : ℝ)) := by
    refine ⟨Or.inl rfl, le_refl _, ?_⟩
    intro m hm
    simp at hm
  have i1 := coldStep_inv values [] ([], (0 : ℝ)) 1 i0
  have i2 := coldStep_inv values [1] _ 2 i1
  have i3 := coldStep_inv values ([1] ++ [2]) _ 3 i2
  simpa using i3

/-- C3: the cold-start detector flags `{0, 1}` on `[30, 28, 9, 8, 9, 10]` but
nothing on the reordered `[9, 8, 9, 10, 30, 28]`; lists shorter than 5 are
never flagged; and whenever it returns a nonempty result, that result is
`range n` for a prefix length `n ∈ {1, 2, 3}` leaving at least 3 remaining
values, whose prefix mean is at least 3 times the mean of the remainder,
whose CV improvement exceeds 15 percentage points, and which maximizes the CV
improvement among all such candidates. -/
theorem c3_cold_start_detector :
    detect_cold_start_pattern [30, 28, 9, 8, 9, 10] 3 = [0, 1] ∧
      detect_cold_start_pattern [9, 8, 9, 10, 30, 28] 3 = [] ∧
      (∀ values : List ℚ, values.length < 5 →
        detect_cold_start_pattern values 3 = []) ∧
      (∀ values : List ℚ, detect_cold_start_pattern values 3 ≠ [] →
        ∃ n, n ∈ ([1, 2, 3] : List ℕ) ∧
          detect_cold_start_pattern values 3 = List.range n ∧
          n + 3 ≤ values.length ∧
          npMean (values.take n) ≥ 3 * npMean (values.drop n) ∧
          cvOf values - cvOf (values.drop n) > 15 ∧
          ∀ m ∈ ([1, 2, 3] : List ℕ), m + 3 ≤ values.length →
            npMean (values.take m) ≥ 3 * npMean (values.drop m) →
            cvOf values - cvOf (values.drop m) ≤
              cvOf values - cvOf (values.drop n)) := by
  refine ⟨detect_30, detect_9, ?_, ?_⟩
  · intro values h5
    unfold detect_cold_start_pattern
    rw [if_pos h5]
  · intro values hne
    rw [detect_eq_fold] at hne ⊢
    by_cases h5 : values.length < 5
    · rw [if_pos h5] at hne
      exact absurd rfl hne
    · rw [if_neg h5] at hne ⊢
      obtain ⟨hbest, hnn, hdom⟩ := coldInv_fold values
      by_cases hf : ([1, 2, 3].foldl (coldStep values) ([], (0 : ℝ))).2 > 15
      · rw [if_pos hf] at hne ⊢
        rcases hbest with h0 | ⟨n, hnL, hc1, hc2, hbeq⟩
        · rw [h0] at hf
          norm_num at hf
        · refine ⟨n, hnL, ?_, by omega, hc2, ?_, ?_⟩
          · rw [hbeq]
          · rw [hbeq] at hf
            exact hf
          · intro m hm hlen hmean
            have hcond : ¬ m ≥ values.length - 2 := by omega
            have := hdom m hm hcond hmean
            rw [hbeq] at this
            exact this
      · rw [if_neg hf] at hne
        exact absurd rfl hne

/-- Witness for C3's conditional part at `[30, 28, 9, 8, 9, 10]`. -/
theorem c3_cold_start_detector_witness :
    detect_cold_start_pattern [30, 28, 9, 8, 9, 10] 3 ≠ [] ∧
      ∃ n, n ∈ ([1, 2, 3] : List ℕ) ∧
        detect_cold_start_pattern [30, 28, 9, 8, 9, 10] 3 = List.range n ∧
        n + 3 ≤ ([30, 28, 9, 8, 9, 10] : List ℚ).length ∧
        npMean (([30, 28, 9, 8, 9, 10] : List ℚ).take n) ≥
          3 * npMean (([30, 28, 9, 8, 9, 10] : List ℚ).drop n) ∧
        cvOf [30, 28, 9, 8, 9, 10] -
            cvOf (([30, 28, 9, 8, 9, 10] : List ℚ).drop n) > 15 ∧
        ∀ m ∈ ([1, 2, 3] : List ℕ), m + 3 ≤ ([30, 28, 9, 8, 9, 10] : List ℚ).length →
          npMean (([30, 28, 9, 8, 9, 10] : List ℚ).take m) ≥
            3 * npMean (([30, 28, 9, 8, 9, 10] : List ℚ).drop m) →
          cvOf [30, 28, 9, 8, 9, 10] -
              cvOf (([30, 28, 9, 8, 9, 10] : List ℚ).drop m) ≤
            cvOf [30, 28, 9, 8, 9, 10] -
              cvOf (([30, 28, 9, 8, 9, 10] : List ℚ).drop n) := by
  have h := c3_cold_start_detector
  have hne : detect_cold_start_pattern [30, 28, 9, 8, 9, 10] 3 ≠ [] := by
    rw [h.1]
    simp
  exact ⟨hne, h.2.2.2 _ hne⟩

/-! ## C4: the conservative acceptance gate is strict -/

/-- The conservative metric pass yields either a no-op pair `(s, none)` or an
applied cleaning `(after, some entry)`. -/
theorem clean_metric_n10_shape (s : SampleStats) :
    clean_metric_n10 s = (s, none) ∨
      ∃ a e, clean_metric_n10 s = (a, some e) := by
  unfold clean_metric_n10
  split
  · exact Or.inl rfl
  · split
    · exact Or.inl rfl
    · dsimp only
      split
      · exact Or.inl rfl
      · split
        · exact Or.inr ⟨_, _, rfl⟩
        · exact Or.inl rfl

theorem q1_19s : npPercentile [19, 19, 19, 19, 24] 25 = 19 := by
  norm_num [npPercentile, List.insertionSort, List.orderedInsert, natFloorPos,
    show Int.toNat 1 = 1 from rfl]

theorem q3_19s : npPercentile [19, 19, 19, 19, 24] 75 = 19 := by
  norm_num [npPercentile, List.insertionSort, List.orderedInsert, natFloorPos,
    show Int.toNat 3 = 3 from rfl]

theorem identify_19s :
    identify_outliers [19, 19, 19, 19, 24] = ([4], toFQ 19, toFQ 19) := by
  unfold identify_outliers calculate_iqr_bounds
  rw [q1_19s, q3_19s]
  norm_num [List.enum, List.enumFrom, List.filter, toFQ_lt]

theorem remove_19s : remove_indices [4] [19, 19, 19, 19, 24] = [19, 19, 19, 19] := by
  norm_num [remove_indices, List.enum, List.enumFrom, List.filter]

theorem q1_191s : npPercentile [191, 191, 191, 191, 236] 25 = 191 := by
  norm_num [npPercentile, List.insertionSort, List.orderedInsert, natFloorPos,
    show Int.toNat 1 = 1 from rfl]

theorem q3_191s : npPercentile [191, 191, 191, 191, 236] 75 = 191 := by
  norm_num [npPercentile, List.insertionSort, List.orderedInsert, natFloorPos,
    show Int.toNat 3 = 3 from rfl]

theorem identify_191s :
    identify_outliers [191, 191, 191, 191, 236] = ([4], toFQ 191, toFQ 191) := by
  unfold identify_outliers calculate_iqr_bounds
  rw [q1_191s, q3_191s]
  norm_num [List.enum, List.enumFrom, List.filter, toFQ_lt]

theorem remove_191s :
    remove_indices [4] [191, 191, 191, 191, 236] = [191, 191, 191, 191] := by
  norm_num [remove_indices, List.enum, List.enumFrom, List.filter]

/-- A metric whose stored statistics are exactly consistent with values
`[19, 19, 19, 19, 24]`: mean 20, population std 2, CV exactly 10%. -/
noncomputable def stats10 : SampleStats := ⟨20, 2, 19, 24, 10, 5, [19, 19, 19, 19, 24]⟩

/-- A metric consistent with `[191, 191, 191, 191, 236]`: mean 200, std 18,
CV exactly 9%. -/
noncomputable def stats9 : SampleStats :=
  ⟨200, 18, 191, 236, 9, 5, [191, 191, 191, 191, 236]⟩

/-- File holding only the exactly-10pp metric. -/
noncomputable def f10 : AggFile := ⟨5, [("p50_latency_ms", stats10)], none⟩

/-- File holding only the exactly-9pp metric. -/
noncomputable def f9 : AggFile := ⟨5, [("p50_latency_ms", stats9)], none⟩

/-- Removing the flagged outlier from `[19, 19, 19, 19, 24]` improves the CV
by exactly 10 percentage points, so the strict `> 10` gate rejects it. -/
theorem clean_metric_n10_stats10 : clean_metric_n10 stats10 = (stats10, none) := by
  have hcv : (calculate_statistics [19, 19, 19, 19]).cv_percent = 0 :=
    calculate_statistics_cv_zero (by simp) (by norm_num [npVar, npMean])
  unfold clean_metric_n10 stats10
  norm_num [identify_19s, remove_19s, hcv]

/-- Removing the flagged outlier from `[191, 191, 191, 191, 236]` improves
the CV by exactly 9 percentage points, below the 10pp gate. -/
theorem clean_metric_n10_stats9 : clean_metric_n10 stats9 = (stats9, none) := by
  have hcv : (calculate_statistics [191, 191, 191, 191]).cv_percent = 0 :=
    calculate_statistics_cv_zero (by simp) (by norm_num [npVar, npMean])
  unfold clean_metric_n10 stats9
  norm_num [identify_191s, remove_191s, hcv]

theorem clean_n10_f10 (now : String) :
    clean_aggregated_results_n10 f10 now =
      (⟨[], 0, 5, 5, "no_outliers"⟩, f10, false) := by
  unfold clean_aggregated_results_n10 f10
  simp only [List.map_cons, List.map_nil, clean_metric_n10_stats10,
    List.filterMap_cons, List.filterMap_nil, Option.map_none]
  norm_num

theorem clean_n10_f9 (now : String) :
    clean_aggregated_results_n10 f9 now =
      (⟨[], 0, 5, 5, "no_outliers"⟩, f9, false) := by
  unfold clean_aggregated_results_n10 f9
  simp only [List.map_cons, List.map_nil, clean_metric_n10_stats9,
    List.filterMap_cons, List.filterMap_nil, Option.map_none]
  norm_num

/-- C4: once the conservative detector has flagged outliers on a metric with
at least 4 values, the cleaning is applied iff the CV improvement (stored
`cv_percent` minus the recomputed after-CV) is strictly greater than 10
percentage points AND at least 3 values remain; a rejected metric is left
untouched.  On the exactly-10pp file (values `[19, 19, 19, 19, 24]`, stored
CV 10, after-CV 0) and on the exactly-9pp file (values
`[191, 191, 191, 191, 236]`, stored CV 9) the detector flags index 4 but the
pass is a no-op: statistics unchanged, nothing written, status
`"no_outliers"`. -/
theorem c4_strict_gate :
    (∀ s : SampleStats, 4 ≤ s.values.length →
      (identify_outliers s.values).1 ≠ [] →
      ((clean_metric_n10 s).2.isSome = true ↔
        (s.cv_percent - (calculate_statistics
            (remove_indices (identify_outliers s.values).1 s.values)).cv_percent > 10 ∧
          3 ≤ (remove_indices (identify_outliers s.values).1 s.values).length))) ∧
      (∀ s : SampleStats, (clean_metric_n10 s).2 = none →
        (clean_metric_n10 s).1 = s) ∧
      (identify_outliers [19, 19, 19, 19, 24]).1 = [4] ∧
      (∀ now, clean_aggregated_results_n10 f10 now =
        (⟨[], 0, 5, 5, "no_outliers"⟩, f10, false)) ∧
      (identify_outliers [191, 191, 191, 191, 236]).1 = [4] ∧
      (∀ now, clean_aggregated_results_n10 f9 now =
        (⟨[], 0, 5, 5, "no_outliers"⟩, f9, false)) := by
  refine ⟨?_, ?_, by rw [identify_19s], clean_n10_f10, by rw [identify_191s],
    clean_n10_f9⟩
  · intro s h4 hidx
    have hne : ¬ s.values = [] := by
      intro h
      rw [h] at h4
      simp at h4
    unfold clean_metric_n10
    rw [if_neg hne, if_neg (by omega)]
    dsimp only
    rw [if_neg hidx]
    split
    · next h =>
        simp only [Option.isSome_some]
        exact iff_of_true trivial ⟨h.1, h.2⟩
    · next h =>
        simp only [Option.isSome_none]
        exact iff_of_false (by simp) h
  · intro s h
    rcases clean_metric_n10_shape s with heq | ⟨a, e, heq⟩
    · rw [heq]
    · rw [heq] at h
      simp at h

/-- Witness for C4's conditional parts at the exactly-10pp metric: the
detector flags index 4, yet the gate evaluates to false (improvement exactly
10 is not `> 10`) and the metric is untouched. -/
theorem c4_strict_gate_witness :
    ((clean_metric_n10 stats10).2.isSome = true ↔
      (stats10.cv_percent - (calculate_statistics
          (remove_indices (identify_outliers stats10.values).1 stats10.values)).cv_percent > 10 ∧
        3 ≤ (remove_indices (identify_outliers stats10.values).1 stats10.values).length)) ∧
      (clean_metric_n10 stats10).1 = stats10 := by
  have h := c4_strict_gate
  refine ⟨h.1 stats10 (by norm_num [stats10]) ?_, ?_⟩
  · show (identify_outliers stats10.values).1 ≠ []
    rw [show stats10.values = [19, 19, 19, 19, 24] from rfl, identify_19s]
    simp
  · exact h.2.1 stats10 (by rw [clean_metric_n10_stats10])

/-! ## C1/C2: the shallow copy in `aggregate_results` -/

/-- Two runs reporting only a top-k-3 p50 latency (1 ms and 2 ms). -/
def runA : RunRecord := ⟨none, some (.qlist [⟨some 3, some 1, none, none, none⟩])⟩

/-- Second run of the pair. -/
def runB : RunRecord := ⟨none, some (.qlist [⟨some 3, some 2, none, none, none⟩])⟩

/-- `runA` after the first aggregation's in-place mean substitution: its p50
has been overwritten by the mean `3/2`. -/
def runA2 : RunRecord :=
  ⟨none, some (.qlist [⟨some 3, some (3 / 2), none, none, none⟩])⟩

/-- Two runs reporting only ingestion times (10 s and 20 s). -/
def runC : RunRecord := ⟨some ⟨some 10, some 5⟩, none⟩

/-- Second ingestion-only run. -/
def runD : RunRecord := ⟨some ⟨some 20, some 5⟩, none⟩

/-- The p50 statistics entry of the first aggregation. -/
noncomputable def statP50AB : MetricStat :=
  ⟨3 / 2, Real.sqrt ((1 / 4 : ℚ) : ℝ), 1, 2, [1, 2], 2⟩

theorem extract_runA : extract_metrics runA = ⟨none, none, some 1, none, none⟩ := rfl

theorem extract_runB : extract_metrics runB = ⟨none, none, some 2, none, none⟩ := rfl

theorem extract_runA2 :
    extract_metrics runA2 = ⟨none, none, some (3 / 2), none, none⟩ := rfl

theorem extract_runC : extract_metrics runC = ⟨some 10, some 5, none, none, none⟩ := rfl

theorem extract_runD : extract_metrics runD = ⟨some 20, some 5, none, none, none⟩ := rfl

/-- Full evaluation of the first aggregation: the statistics hold mean `3/2`,
and the in-place update leaks into `individual_runs`, whose head is now
`runA2` rather than `runA`. -/
theorem aggregate_AB :
    aggregate_results [runA, runB] =
      some ⟨2, [runA2, runB], ⟨none, none, some statP50AB, none, none⟩, runA2⟩ := by
  unfold aggregate_results
  simp only [extract_runA, extract_runB, List.map_cons, List.map_nil,
    List.filterMap_cons, List.filterMap_nil]
  have hstat : mkStat [1, 2] = some statP50AB := by
    unfold mkStat statP50AB
    rw [if_neg (by simp)]
    have h1 : npMean [1, 2] = 3 / 2 := by norm_num [npMean]
    have h2 : npVar [1, 2] = 1 / 4 := by norm_num [npVar, npMean]
    have h3 : npMin [1, 2] = 1 := by norm_num [npMin]
    have h4 : npMax [1, 2] = 2 := by norm_num [npMax]
    rw [h1, h2, h3, h4]
    norm_num
  have hempty : mkStat ([] : List ℚ) = none := by
    unfold mkStat
    rw [if_pos rfl]
  simp only [hstat, hempty]
  unfold runA runA2 updateQueryResults updateListEntry statGet
  norm_num
  rfl

/-- Full evaluation of the re-aggregation of the stored `individual_runs`:
the already-averaged head now contributes `3/2`, so the p50 mean becomes
`7/4`. -/
theorem aggregate_A2B :
    (aggregate_results [runA2, runB]).map
        (fun a => a.statistics.p50_latency_ms.map (·.mean)) =
      some (some (7 / 4)) := by
  unfold aggregate_results
  simp only [extract_runA2, extract_runB, List.map_cons, List.map_nil,
    List.filterMap_cons, List.filterMap_nil]
  have hstat : (mkStat [3 / 2, 2]).map (·.mean) = some (7 / 4) := by
    unfold mkStat
    rw [if_neg (by simp)]
    simp only [Option.map_some']
    norm_num [npMean]
  simp only [Option.map_some']
  rw [hstat]

/-- C1: re-aggregation is NOT idempotent.  On two runs with p50 latencies 1
and 2, the first aggregation stores mean `3/2` but mutates
`all_results[0]` in place (through the shallow `rep_result` copy), so
aggregating the stored `individual_runs` again yields mean `7/4 ≠ 3/2`. -/
theorem c1_reaggregation_not_idempotent :
    (aggregate_results [runA, runB]).map
        (fun a => a.statistics.p50_latency_ms.map (·.mean)) = some (some (3 / 2)) ∧
      ((aggregate_results [runA, runB]).bind
          (fun a => aggregate_results a.individual_runs)).map
        (fun a => a.statistics.p50_latency_ms.map (·.mean)) = some (some (7 / 4)) ∧
      (3 / 2 : ℚ) ≠ 7 / 4 := by
  refine ⟨?_, ?_, by norm_num⟩
  · rw [aggregate_AB]
    rfl
  · rw [aggregate_AB]
    exact aggregate_A2B

/-- C2: `mean_result` is not a deep copy and `individual_runs` is not
preserved verbatim.  (i) After aggregating `[runA, runB]` the first stored
raw run is `runA2` — its p50 was overwritten in place with the mean — and
`runA2 ≠ runA`.  (ii) The ingestion branch probes statistics for the key
`'total_time_sec'` while the statistics are stored under `'ingestion_time'`,
so although the ingestion-time mean 15 exists, `mean_result`'s
`ingestion.total_time_sec` keeps the first run's value 10. -/
theorem c2_mean_result_not_deep_copy :
    (aggregate_results [runA, runB]).map (·.individual_runs) =
        some [runA2, runB] ∧
      runA2 ≠ runA ∧
      (aggregate_results [runC, runD]).map
        (fun a => a.statistics.ingestion_time.map (·.mean)) = some (some 15) ∧
      (aggregate_results [runC, runD]).map
        (fun a => a.mean_result.ingestion.map (·.total_time_sec)) =
          some (some (some 10)) := by
  refine ⟨?_, ?_, ?_, ?_⟩
  · rw [aggregate_AB]
    rfl
  · intro h
    have h2 := congrArg (fun r : RunRecord => r.query_results) h
    simp [runA2, runA] at h2
    norm_num at h2
  · unfold aggregate_results
    simp only [extract_runC, extract_runD, List.map_cons, List.map_nil,
      List.filterMap_cons, List.filterMap_nil]
    have hstat : (mkStat [10, 20]).map (·.mean) = some 15 := by
      unfold mkStat
      rw [if_neg (by simp)]
      norm_num [npMean]
    have hempty : mkStat ([] : List ℚ) = none := by
      unfold mkStat
      rw [if_pos rfl]
    simp only [hempty]
    simp only [Option.map]
    simpa [Option.map] using hstat
  · unfold aggregate_results
    simp only [List.map_cons, List.map_nil]
    rfl

/-! ## C7: extraction path and per-metric partial coverage -/

/-- `mkStat` is `none` exactly on the empty contribution list. -/
theorem mkStat_none_iff (vals : List ℚ) : mkStat vals = none ↔ vals = [] := by
  unfold mkStat
  split
  · next h => exact iff_of_true rfl h
  · next h => exact iff_of_false (by simp) h

/-- A produced statistics entry stores the contribution list and its length. -/
theorem mkStat_some (vals : List ℚ) (st : MetricStat) (h : mkStat vals = some st) :
    st.values = vals ∧ st.n = vals.length := by
  unfold mkStat at h
  split at h
  · simp at h
  · rw [Option.some_inj] at h
    subst h
    exact ⟨rfl, rfl⟩

/-- `aggregate_results` on a nonempty list, with the statistics spelled out. -/
theorem aggregate_results_cons (r0 : RunRecord) (rest : List RunRecord) :
    ∃ runsNew meanNew, aggregate_results (r0 :: rest) =
      some ⟨(r0 :: rest).length, runsNew,
        ⟨mkStat (((r0 :: rest).map extract_metrics).filterMap (·.ingestion_time)),
         mkStat (((r0 :: rest).map extract_metrics).filterMap (·.num_chunks)),
         mkStat (((r0 :: rest).map extract_metrics).filterMap (·.p50_latency_ms)),
         mkStat (((r0 :: rest).map extract_metrics).filterMap (·.p95_latency_ms)),
         mkStat (((r0 :: rest).map extract_metrics).filterMap (·.queries_per_second))⟩,
        meanNew⟩ :=
  ⟨_, _, rfl⟩

/-- A run reporting p50 4 ms and p95 7 ms at top-k 3. -/
def runE : RunRecord := ⟨none, some (.qlist [⟨some 3, some 4, none, some 7, none⟩])⟩

theorem extract_runE : extract_metrics runE = ⟨none, none, some 4, some 7, none⟩ := rfl

/-- Aggregating `runA` (no p95) with `runE` (p95 = 7) yields a p95 entry with
`n = 1`, strictly below the run count 2. -/
theorem aggregate_AE_p95 :
    (aggregate_results [runA, runE]).map
        (fun a => a.statistics.p95_latency_ms.map (·.n)) = some (some 1) := by
  unfold aggregate_results
  simp only [extract_runA, extract_runE, List.map_cons, List.map_nil,
    List.filterMap_cons, List.filterMap_nil]
  have hstat : (mkStat [7]).map (·.n) = some 1 := by
    unfold mkStat
    rw [if_neg (by simp)]
    simp only [Option.map_some']
    simp
  simp only [Option.map_some']
  rw [hstat]

/-- C7: `extract_metrics` takes the top-k-3 scalars from the first list entry
with `top_k == 3` (or the mapping entry under `"3"`, then `"top_k_3"`); a
missing field is simply omitted (`none`); and each metric's statistics are
built over exactly the runs that reported it, so its `n` equals the number of
reporting runs and never exceeds the total run count — e.g. aggregating a run
without p95 with one that has p95 7 gives a p95 entry with `n = 1 < 2`. -/
theorem c7_extraction_and_partial_coverage :
    (∀ (ing : Option Ingestion) (items : List QueryEntry) (q : QueryEntry),
      items.find? (fun it => it.top_k == some 3) = some q →
      q.isTruthy = true →
      (extract_metrics ⟨ing, some (.qlist items)⟩).p50_latency_ms =
          (q.p50_latency_ms <|> q.avg_latency_ms) ∧
        (extract_metrics ⟨ing, some (.qlist items)⟩).p95_latency_ms =
          q.p95_latency_ms ∧
        (extract_metrics ⟨ing, some (.qlist items)⟩).queries_per_second =
          q.queries_per_second) ∧
      (∀ (ing : Option Ingestion) (entries : List (String × QueryEntry))
        (q : QueryEntry),
        lookupQ entries "3" = some q →
        q.isTruthy = true →
        (extract_metrics ⟨ing, some (.qdict entries)⟩).p50_latency_ms =
            (q.p50_latency_ms <|> q.avg_latency_ms) ∧
          (extract_metrics ⟨ing, some (.qdict entries)⟩).p95_latency_ms =
            q.p95_latency_ms ∧
          (extract_metrics ⟨ing, some (.qdict entries)⟩).queries_per_second =
            q.queries_per_second) ∧
      (∀ (rs : List RunRecord) (a : Aggregated), aggregate_results rs = some a →
        (a.statistics.p50_latency_ms = none ↔
            (rs.map extract_metrics).filterMap (·.p50_latency_ms) = []) ∧
          (∀ st, a.statistics.p50_latency_ms = some st →
            st.values = (rs.map extract_metrics).filterMap (·.p50_latency_ms) ∧
              st.n = ((rs.map extract_metrics).filterMap (·.p50_latency_ms)).length ∧
              st.n ≤ rs.length) ∧
          ∀ st, a.statistics.p95_latency_ms = some st →
            st.values = (rs.map extract_metrics).filterMap (·.p95_latency_ms) ∧
              st.n = ((rs.map extract_metrics).filterMap (·.p95_latency_ms)).length ∧
              st.n ≤ rs.length) ∧
      (aggregate_results [runA, runE]).map
        (fun a => a.statistics.p95_latency_ms.map (·.n)) = some (some 1) := by
  refine ⟨?_, ?_, ?_, aggregate_AE_p95⟩
  · intro ing items q hfind htruthy
    unfold extract_metrics selectTopK3
    dsimp only
    rw [hfind]
    dsimp only
    rw [if_pos htruthy]
    exact ⟨rfl, rfl, rfl⟩
  · intro ing entries q hlook htruthy
    unfold extract_metrics selectTopK3
    dsimp only
    rw [hlook]
    simp only [Option.isSome_some, if_true]
    rw [if_pos htruthy]
    exact ⟨rfl, rfl, rfl⟩
  · intro rs a h
    match rs with
    | [] =>
        unfold aggregate_results at h
        simp at h
    | r0 :: rest =>
        obtain ⟨runsNew, meanNew, heq⟩ := aggregate_results_cons r0 rest
        rw [heq, Option.some_inj] at h
        subst h
        refine ⟨?_, ?_, ?_⟩
        · exact mkStat_none_iff _
        · intro st hst
          obtain ⟨hv, hn⟩ := mkStat_some _ _ hst
          refine ⟨hv, hn, ?_⟩
          rw [hn]
          calc (((r0 :: rest).map extract_metrics).filterMap (·.p50_latency_ms)).length
              ≤ ((r0 :: rest).map extract_metrics).length :=
                List.length_filterMap_le _ _
            _ = (r0 :: rest).length := List.length_map _ _
        · intro st hst
          obtain ⟨hv, hn⟩ := mkStat_some _ _ hst
          refine ⟨hv, hn, ?_⟩
          rw [hn]
          calc (((r0 :: rest).map extract_metrics).filterMap (·.p95_latency_ms)).length
              ≤ ((r0 :: rest).map extract_metrics).length :=
                List.length_filterMap_le _ _
            _ = (r0 :: rest).length := List.length_map _ _

/-- Witness for C7 at concrete inputs: the selection result on `runE`'s query
list, the mapping lookup, and the stored p50 statistics of the
`[runA, runB]` aggregation. -/
theorem c7_extraction_and_partial_coverage_witness :
    (extract_metrics ⟨none, some (.qlist [⟨some 3, some 4, none, some 7, none⟩])⟩).p50_latency_ms =
        ((some 4 : Option ℚ) <|> none) ∧
      (extract_metrics ⟨none, some (.qdict [("3", ⟨some 3, some 4, none, some 7, none⟩)])⟩).p95_latency_ms =
        some 7 ∧
      statP50AB.values =
          (([runA, runB].map extract_metrics).filterMap (·.p50_latency_ms)) ∧
      statP50AB.n ≤ ([runA, runB] : List RunRecord).length := by
  have h := c7_extraction_and_partial_coverage
  refine ⟨(h.1 none [⟨some 3, some 4, none, some 7, none⟩]
      ⟨some 3, some 4, none, some 7, none⟩ rfl rfl).1, ?_, ?_, ?_⟩
  · exact (h.2.1 none [("3", ⟨some 3, some 4, none, some 7, none⟩)]
      ⟨some 3, some 4, none, some 7, none⟩ rfl rfl).2.1
  · exact ((h.2.2.1 [runA, runB] _ aggregate_AB).2.1 statP50AB rfl).1
  · exact ((h.2.2.1 [runA, runB] _ aggregate_AB).2.1 statP50AB rfl).2.2

/-! ## C5: the power-law fitter -/

theorem sum_map_affine (c b : ℝ) (l : List ℝ) :
    (l.map (fun t => c + b * t)).sum = l.length * c + b * l.sum := by
  induction l with
  | nil => simp
  | cons h t ih =>
      simp only [List.map_cons, List.sum_cons, ih, List.length_cons]
      push_cast
      ring

theorem sum_map_smul (b : ℝ) (h : ℝ → ℝ) (l : List ℝ) :
    (l.map (fun t => b * h t)).sum = b * (l.map h).sum := by
  induction l with
  | nil => simp
  | cons a t ih =>
      simp only [List.map_cons, List.sum_cons, ih]
      ring

theorem zipWith_map_right_self (f : ℝ → ℝ → ℝ) (g : ℝ → ℝ) (l : List ℝ) :
    List.zipWith f l (l.map g) = l.map (fun t => f t (g t)) := by
  induction l with
  | nil => rfl
  | cons a t ih => simp [ih]

theorem mean_map_affine (c b : ℝ) (l : List ℝ) (hl : l ≠ []) :
    listMean (l.map (fun t => c + b * t)) = c + b * listMean l := by
  unfold listMean
  rw [sum_map_affine, List.length_map]
  have hn : (l.length : ℝ) ≠ 0 := by
    simp [List.length_eq_zero, hl]
  field_simp
  ring

/-- If the data contains two distinct points, the log-log abscissa variance
term is nonzero. -/
theorem sxx_ne_zero (l : List ℝ) (u v : ℝ) (hu : u ∈ l) (hv : v ∈ l)
    (huv : u ≠ v) :
    (l.map (fun t => (t - listMean l) ^ 2)).sum ≠ 0 := by
  intro h0
  have hnn : ∀ z ∈ l.map (fun t => (t - listMean l) ^ 2), 0 ≤ z := by
    intro z hz
    rcases List.mem_map.mp hz with ⟨t, _, rfl⟩
    positivity
  have hu2 : (u - listMean l) ^ 2 ≤ 0 := by
    rw [← h0]
    exact List.single_le_sum hnn _ (List.mem_map_of_mem _ hu)
  have hv2 : (v - listMean l) ^ 2 ≤ 0 := by
    rw [← h0]
    exact List.single_le_sum hnn _ (List.mem_map_of_mem _ hv)
  have hu3 : u = listMean l := by nlinarith [sq_nonneg (u - listMean l)]
  have hv3 : v = listMean l := by nlinarith [sq_nonneg (v - listMean l)]
  exact huv (hu3.trans hv3.symm)

/-- C5 amended: `fit_scaling_curve` performs no input validation and never
raises; under the spec's precondition (equal lengths at least 2, strictly
positive data with two distinct abscissae) it deterministically returns the
log-log ordinary-least-squares fit, recovering exact power-law data: if
`y = a·x^b` with `a > 0` then the returned coefficient is exactly `a`, the
slope exactly `b`, and the Pearson `r_squared` of the log-log fit is `1`
whenever `b ≠ 0`. -/
theorem c5_fit_recovers_power_law (x y : List ℝ) (a b : ℝ)
    (hx2 : 2 ≤ x.length) (hlen : x.length = y.length)
    (hpos : ∀ v ∈ x, 0 < v) (ha : 0 < a)
    (hy : y = x.map (fun t => a * t ^ b))
    (hdist : ∃ u ∈ x, ∃ v ∈ x, u ≠ v) :
    (fit_scaling_curve x y).1 = a ∧ (fit_scaling_curve x y).2.1 = b ∧
      (b ≠ 0 → (fit_scaling_curve x y).2.2 = 1) := by
  subst hy
  have hxne : x ≠ [] := by
    intro h
    rw [h] at hx2
    simp at hx2
  have hly : (x.map (fun t => a * t ^ b)).map Real.log =
      (x.map Real.log).map (fun t => Real.log a + b * t) := by
    rw [List.map_map, List.map_map]
    apply List.map_congr_left
    intro t ht
    simp only [Function.comp]
    rw [Real.log_mul (ne_of_gt ha)
      (ne_of_gt (Real.rpow_pos_of_pos (hpos t ht) b)),
      Real.log_rpow (hpos t ht)]
  have hlxne : x.map Real.log ≠ [] := by
    simpa using hxne
  obtain ⟨u, hu, v, hv, huv⟩ := hdist
  have hlog : Real.log u ≠ Real.log v := by
    intro h
    apply huv
    rw [← Real.exp_log (hpos u hu), ← Real.exp_log (hpos v hv), h]
  have hsxx : ((x.map Real.log).map
      (fun t => (t - listMean (x.map Real.log)) ^ 2)).sum ≠ 0 :=
    sxx_ne_zero _ _ _ (List.mem_map_of_mem _ hu) (List.mem_map_of_mem _ hv) hlog
  unfold fit_scaling_curve
  rw [hly]
  dsimp only
  rw [mean_map_affine _ _ _ hlxne]
  set lx := x.map Real.log with hlx
  set mx := listMean lx with hmx
  set c := Real.log a with hc
  have hsub : ∀ t : ℝ, c + b * t - (c + b * mx) = b * (t - mx) := by
    intro t
    ring
  have hsxy : (List.zipWith (fun u v => (u - mx) * (v - (c + b * mx))) lx
      (lx.map (fun t => c + b * t))).sum =
      b * (lx.map (fun t => (t - mx) ^ 2)).sum := by
    rw [zipWith_map_right_self]
    have : (lx.map (fun t => (t - mx) * (c + b * t - (c + b * mx)))) =
        lx.map (fun t => b * (t - mx) ^ 2) := by
      apply List.map_congr_left
      intro t _
      rw [hsub]
      ring
    rw [this, sum_map_smul]
  have hsyy : ((lx.map (fun t => c + b * t)).map
      (fun s => (s - (c + b * mx)) ^ 2)).sum =
      b ^ 2 * (lx.map (fun t => (t - mx) ^ 2)).sum := by
    rw [List.map_map]
    have : ((fun s => (s - (c + b * mx)) ^ 2) ∘ fun t => c + b * t) =
        fun t => b ^ 2 * (t - mx) ^ 2 := by
      funext t
      simp only [Function.comp]
      rw [hsub]
      ring
    rw [this, sum_map_smul]
  rw [hsxy, hsyy]
  have hslope : b * (lx.map (fun t => (t - mx) ^ 2)).sum /
      (lx.map (fun t => (t - mx) ^ 2)).sum = b := by
    field_simp
  refine ⟨?_, ?_, ?_⟩
  · rw [hslope]
    have : c + b * mx - b * mx = c := by ring
    rw [this, hc, Real.exp_log ha]
  · rw [hslope]
  · intro hb
    rw [div_eq_one_iff_eq]
    · ring
    · have h2 : (lx.map (fun t => (t - mx) ^ 2)).sum ≠ 0 := hsxx
      positivity

/-- C5 counterexample: on input containing a zero (`x = [1, 2]`,
`y = [0, 1]`) the spec-modelled `fit_power_law` fails with a `DomainError`,
but the source's `fit_scaling_curve` has no error path at all: the zero flows
into the logarithm (numpy: `-inf`/`nan` with only a warning; exact-real
embedding: junk value `log 0 = 0`) and a numeric triple — here `(1, 0, 0)` —
is returned. -/
theorem c5_no_domain_error_counterexample :
    fit_power_law [1, 2] [0, 1] = Except.error DomainError.nonPositive ∧
      fit_scaling_curve [1, 2] [0, 1] = (1, 0, 0) := by
  constructor
  · unfold fit_power_law
    rw [if_pos (by norm_num)]
    rw [if_neg]
    intro h
    have h0 := h 0 (by simp)
    norm_num at h0
  · unfold fit_scaling_curve
    dsimp only
    have hly : ([(0 : ℝ), 1].map Real.log) = [0, 0] := by
      simp [Real.log_zero, Real.log_one]
    rw [hly]
    have hmy : listMean [(0 : ℝ), 0] = 0 := by
      norm_num [listMean]
    rw [hmy]
    have hsxy : (List.zipWith (fun u v => (u - listMean ([(1 : ℝ), 2].map Real.log)) * (v - 0))
        ([(1 : ℝ), 2].map Real.log) [(0 : ℝ), 0]).sum = 0 := by
      simp [List.zipWith]
    rw [hsxy]
    have hsyy : (([(0 : ℝ), 0]).map (fun t => (t - 0) ^ 2)).sum = 0 := by
      norm_num
    rw [hsyy]
    norm_num [Real.exp_zero]

/-- Witness for C5's amended theorem at the spec's exact-fit test data
`x = [1, 10, 100]`, `y = [2, 20, 200]` (`a = 2`, `b = 1`): the fitter
returns coefficient 2, slope 1 and `r_squared = 1`. -/
theorem c5_fit_recovers_power_law_witness :
    (fit_scaling_curve [1, 10, 100] [2, 20, 200]).1 = 2 ∧
      (fit_scaling_curve [1, 10, 100] [2, 20, 200]).2.1 = 1 ∧
      (fit_scaling_curve [1, 10, 100] [2, 20, 200]).2.2 = 1 := by
  have h := c5_fit_recovers_power_law [1, 10, 100] [2, 20, 200] 2 1
    (by norm_num) (by norm_num)
    (by
      intro v hv
      simp at hv
      rcases hv with h | h | h <;> norm_num [h])
    (by norm_num)
    (by
      simp [Real.rpow_one]
      norm_num)
    ⟨1, by simp, 10, by simp, by norm_num⟩
  exact ⟨h.1, h.2.1, h.2.2 (by norm_num)⟩
